import Mathlib

/-!
# Discount voucher API: voucher service and repository

A shallow embedding of `internal/service/voucher_service.go`,
`internal/repository/voucher_repository.go`, `internal/dto/voucher_dto.go` and
`internal/entity/voucher_entity.go`, followed by theorems about the embedded
functions.

Conventions of the embedding

* Go `string` is `String`; text handed to a library routine that walks it
  character by character is a `List Char`, and so is the byte content of a CSV
  file.
* Go `int` and `int64` are `Int`, and arithmetic whose result can leave the
  64-bit range is wrapped with `wrapInt64` (the service runs on a 64-bit
  platform, where `int` is 64 bits wide).  Go's `/` on integers truncates
  toward zero: `Int.tdiv`.
* `error` results are `Except`; a store method that writes returns the new
  store state next to its result, a method that only reads is a function of the
  state.  A service operation whose Go code can fault at run time (a panic)
  returns an `Option`, and `none` is the fault.
* The service is written against the `VoucherRepository` interface exactly as
  in Go; `VoucherRepositoryImpl` is the implementation of the repository over a
  model of the PostgreSQL table it queries through gorm.
* The library routines the service calls (`validator`, `strings.EqualFold`,
  `strconv`, `time`, `encoding/csv`) are modelled after their Go sources for the
  settings the service uses.  The loops of the CSV reader run on fuel;
  `ReadAll_total` shows that the fuel `ReadAll` starts with never runs out.
-/

namespace VoucherAPI

/-! ## Machine integers -/

/-- Two's complement wrap-around of an integer to the range of Go's `int64`. -/
def wrapInt64 (x : Int) : Int := (x + 2 ^ 63) % 2 ^ 64 - 2 ^ 63

/-- Largest value of Go's `int64` (and of `int` on a 64-bit platform). -/
def maxInt64 : Int := 2 ^ 63 - 1

/-! ## Data model -/

/-- A `time.Time` value, as the wall reading it shows in its own location: the
calendar date, the nanoseconds elapsed since midnight and a tag naming the
location (`0` for UTC). -/
structure Time where
  year : Int
  month : Nat
  day : Nat
  nanos : Nat
  loc : Nat
deriving DecidableEq, Repr

/-- The zero value `time.Time{}`: January 1, year 1, 00:00:00 UTC. -/
def Time.zero : Time := ⟨1, 1, 1, 0, 0⟩

/-- The `entity.Voucher` record. -/
structure Voucher where
  ID : String
  Code : String
  DiscountPercent : Int
  ExpiryDate : Time
  CreatedAt : Time
  UpdatedAt : Time
deriving DecidableEq, Repr

/-- The `dto.VoucherRequest` record. -/
structure VoucherRequest where
  Code : String
  DiscountPercent : Int
  ExpiryDate : Time
deriving DecidableEq, Repr

/-- The `dto.VoucherResponse` record (the two timestamps are pointers in Go). -/
structure VoucherResponse where
  ID : String
  Code : String
  DiscountPercent : Int
  ExpiryDate : Time
  CreatedAt : Option Time
  UpdatedAt : Option Time
deriving DecidableEq, Repr

/-- The `dto.PageMetadata` record, as `GetVouchers` fills it. -/
structure PageMetadata where
  Page : Int
  Size : Int
  TotalItem : Int
  TotalPage : Int
  HasNext : Bool
  HasPrevious : Bool
deriving DecidableEq, Repr

/-- The `dto.CSVFailedRow` record. -/
structure CSVFailedRow where
  Row : Int
  Reason : String
deriving DecidableEq, Repr

/-- The `dto.CSVImportReport` record. -/
structure CSVImportReport where
  SuccessCount : Int
  FailedCount : Int
  FailedRows : List CSVFailedRow
deriving DecidableEq, Repr

/-- The parse errors of encoding/csv a reader with default settings can report. -/
inductive CsvError where
  | ErrBareQuote
  | ErrQuote
  | ErrFieldCount
deriving DecidableEq, Repr

/-- Errors a service operation returns: an error value the service builds itself
with `fiber.NewError(status, message)`, the error value `e` it received from a
repository call and hands on, or, in the import, the error of opening the
uploaded file or of parsing it as CSV. -/
inductive ServiceError (ε : Type) where
  | fiber (status : Nat) (message : String)
  | store (e : ε)
  | upload (err : String)
  | csv (err : CsvError)
deriving DecidableEq, Repr

/-- Status codes of `fiber` used by the service. -/
def StatusBadRequest : Nat := 400

/-- Status code `fiber.StatusConflict`. -/
def StatusConflict : Nat := 409

/-- Status code `fiber.StatusInternalServerError`. -/
def StatusInternalServerError : Nat := 500

/-- The error `fiber.NewError(fiber.StatusConflict, "voucher code already exists")`. -/
def conflictError {ε : Type} : ServiceError ε :=
  .fiber StatusConflict "voucher code already exists"

/-! ## The repository interface -/

/-- The Go interface `repository.VoucherRepository` over a store state `σ` with
store errors `ε`. -/
structure VoucherRepository (σ ε : Type) where
  CreateVoucher : σ → Voucher → Except ε Voucher × σ
  CheckVoucherIfExist : σ → String → Except ε Bool
  GetVouchers : σ → Int → Int → String → String → Except ε (List Voucher × Int)
  GetVoucherById : σ → String → Except ε Voucher
  DeleteVoucher : σ → String → Except ε Unit × σ
  UpdateVoucher : σ → Voucher → Except ε Voucher × σ
  FindAll : σ → String → String → Except ε (List Voucher)

/-! ## Library routines the service calls -/

/-- `Validate.Struct` of go-playground/validator on a `dto.VoucherRequest`.  The
only tag on each of the three fields is `validate:"required"`, which rejects
exactly the zero value of the field's type: the empty string, the integer `0`
and the zero `time.Time`. -/
def Validate.Struct (a : VoucherRequest) : Bool :=
  decide (a.Code ≠ "") && decide (a.DiscountPercent ≠ 0) && decide (a.ExpiryDate ≠ Time.zero)

/-- One step of `strings.EqualFold` on a pair of runes.  Equal runes match; two
ASCII runes match when they are the upper and lower case of one letter; for a
pair with a rune outside ASCII the answer comes from the Unicode simple-folding
orbit (`unicode.SimpleFold`), given here as `orbit lo hi`. -/
def foldRunes (orbit : Char → Char → Bool) (sr tr : Char) : Bool :=
  if tr = sr then true
  else
    let lo := if tr < sr then tr else sr
    let hi := if tr < sr then sr else tr
    if hi.toNat < 0x80 then
      decide ('A' ≤ lo ∧ lo ≤ 'Z' ∧ hi.toNat = lo.toNat + 32)
    else orbit lo hi

/-- The rune-by-rune loop of `strings.EqualFold`. -/
def equalFoldRunes (orbit : Char → Char → Bool) : List Char → List Char → Bool
  | [], [] => true
  | sr :: s, tr :: t => foldRunes orbit sr tr && equalFoldRunes orbit s t
  | _, _ => false

/-- `strings.EqualFold`: equality under simple Unicode case folding. -/
def EqualFold (orbit : Char → Char → Bool) (s t : String) : Bool :=
  equalFoldRunes orbit s.toList t.toList

/-- Whether a byte is an ASCII decimal digit. -/
def isDigit (c : Char) : Bool := decide ('0' ≤ c) && decide (c ≤ '9')

/-- The value of an ASCII decimal digit. -/
def digitVal (c : Char) : Nat := c.toNat - 48

/-- The ASCII decimal digit of a value below ten. -/
def digitChar (d : Nat) : Char := Char.ofNat (48 + d)

/-- The value of a string of decimal digits, most significant first. -/
def decimalVal (ds : List Char) : Nat := ds.foldl (fun acc c => acc * 10 + digitVal c) 0

/-- `strconv.Atoi`: an optional sign followed by at least one decimal digit and
nothing else, with a value in the range of `int`; `none` is the error result. -/
def Atoi (s : String) : Option Int :=
  let cs := s.toList
  let neg := decide (cs.head? = some '-')
  let ds := if cs.head? = some '-' ∨ cs.head? = some '+' then cs.tail else cs
  if ds = [] then none
  else if ds.all isDigit then
    let v : Int := if neg then -(decimalVal ds : Int) else (decimalVal ds : Int)
    if -(2 ^ 63) ≤ v ∧ v ≤ maxInt64 then some v else none
  else none

/-- `strconv.Itoa`: the decimal form, with a leading `-` for a negative value. -/
def Itoa (n : Int) : String :=
  String.mk ((if n < 0 then ['-'] else []) ++ Nat.toDigits 10 n.natAbs)

/-- `appendInt` of package `time`: the decimal form of `x`, zero-padded to `width`
digits behind the sign.  The two branches for two- and four-digit fields are the
table look-ups of the Go routine. -/
def appendInt (x : Int) (width : Nat) : List Char :=
  let u := x.natAbs
  (if x < 0 then ['-'] else []) ++
    (if width = 2 ∧ u < 100 then [digitChar (u / 10), digitChar (u % 10)]
     else if width = 4 ∧ u < 10000 then
       [digitChar (u / 1000), digitChar (u / 100 % 10), digitChar (u / 10 % 10), digitChar (u % 10)]
     else
       List.replicate (width - (Nat.toDigits 10 u).length) '0' ++ Nat.toDigits 10 u)

/-- `Time.Format("2006-01-02")`: year, month and day of the wall reading. -/
def Time.Format (t : Time) : String :=
  String.mk (appendInt t.year 4 ++ '-' :: appendInt t.month 2 ++ '-' :: appendInt t.day 2)

/-- `isLeap` of package `time`. -/
def isLeap (year : Int) : Bool :=
  decide (year % 4 = 0) && (decide (year % 100 ≠ 0) || decide (year % 400 = 0))

/-- `daysIn` of package `time`: the number of days of a month, given as 1..12. -/
def daysIn (month : Nat) (year : Int) : Nat :=
  if month = 2 then (if isLeap year then 29 else 28)
  else if month = 4 ∨ month = 6 ∨ month = 9 ∨ month = 11 then 30
  else 31

/-- `getnum(value, true)` of package `time`: exactly two leading digits. -/
def getnum (value : List Char) : Option (Nat × List Char) :=
  match value with
  | a :: b :: rest =>
    if isDigit a && isDigit b then some (digitVal a * 10 + digitVal b, rest) else none
  | _ => none

/-- `skip(value, "-")` of package `time`: the literal `-` of the layout. -/
def skipDash (value : List Char) : Option (List Char) :=
  match value with
  | '-' :: rest => some rest
  | _ => none

/-- `time.Parse("2006-01-02", value)`: four digits of year, `-`, two digits of
month, `-`, two digits of day and no further text, the month in 1..12 and the day
in 1..`daysIn`.  The result is midnight UTC of that date; `none` is the error
result. -/
def Parse (value : String) : Option Time :=
  match value.toList with
  | y1 :: y2 :: y3 :: y4 :: v1 =>
    if isDigit y1 && isDigit y2 && isDigit y3 && isDigit y4 then
      let year : Int := (decimalVal [y1, y2, y3, y4] : Nat)
      match skipDash v1 with
      | none => none
      | some v2 =>
        match getnum v2 with
        | none => none
        | some (month, v3) =>
          match skipDash v3 with
          | none => none
          | some v4 =>
            match getnum v4 with
            | none => none
            | some (day, v5) =>
              if v5 ≠ [] then none
              else if month ≤ 0 ∨ 12 < month then none
              else if day < 1 ∨ daysIn month year < day then none
              else some ⟨year, month, day, 0, 0⟩
    else none
  | _ => none

/-- `unicode.IsSpace`: the code points with the Unicode White_Space property. -/
def IsSpace (r : Char) : Bool :=
  let n := r.toNat
  decide (9 ≤ n ∧ n ≤ 13) || decide (n = 0x20) || decide (n = 0x85) || decide (n = 0xA0)
    || decide (n = 0x1680) || decide (0x2000 ≤ n ∧ n ≤ 0x200A) || decide (n = 0x2028)
    || decide (n = 0x2029) || decide (n = 0x202F) || decide (n = 0x205F) || decide (n = 0x3000)

/-- `Writer.fieldNeedsQuotes` of encoding/csv for the comma delimiter. -/
def fieldNeedsQuotes (field : List Char) : Bool :=
  match field with
  | [] => false
  | r1 :: _ =>
    decide (field = ['\\', '.'])
      || field.any (fun c => c = '\n' || c = '\r' || c = '"' || c = ',')
      || IsSpace r1

/-- The body of a quoted field as `Writer.Write` emits it without `UseCRLF`: a
quote is doubled, every other byte is copied. -/
def escapeQuotes : List Char → List Char
  | [] => []
  | c :: field => if c = '"' then '"' :: '"' :: escapeQuotes field else c :: escapeQuotes field

/-- One field as `Writer.Write` emits it. -/
def writeField (field : String) : List Char :=
  if fieldNeedsQuotes field.toList then '"' :: escapeQuotes field.toList ++ ['"']
  else field.toList

/-- The fields of a record joined by the comma. -/
def writeFields : List String → List Char
  | [] => []
  | [field] => writeField field
  | field :: fields => writeField field ++ ',' :: writeFields fields

/-- `Writer.Write` of encoding/csv with the default comma and `UseCRLF = false`,
on a buffer that cannot fail: the record is appended to what was written before,
ended by a line feed. -/
def Writer.Write (buffer : List Char) (record : List String) : List Char :=
  buffer ++ writeFields record ++ ['\n']

/-- `lenNewline` of encoding/csv: 1 when the line ends in a line feed. -/
def lenNewline (b : List Char) : Nat := if b.getLast? = some '\n' then 1 else 0

/-- The line `Reader.readLine` of encoding/csv returns for a non-empty input, and
the input left behind it: the bytes up to and including the first line feed, with
a carriage return before that line feed removed, or, when no line feed is left,
the rest of the input without a final carriage return. -/
def readLineAux : List Char → List Char × List Char
  | [] => ([], [])
  | ['\r'] => ([], [])
  | '\r' :: '\n' :: rest => (['\n'], rest)
  | '\n' :: rest => (['\n'], rest)
  | c :: rest => ((c :: (readLineAux rest).1), (readLineAux rest).2)

/-- `Reader.readLine`: `none` is `io.EOF`. -/
def readLine (input : List Char) : Option (List Char × List Char) :=
  if input = [] then none else some (readLineAux input)

/-- How the scan of a quoted field ends. -/
inductive Quoted where
  | comma (field line rest : List Char)
  | endOfLine (field rest : List Char)
  | error (err : CsvError)
deriving DecidableEq, Repr

/-- The inner loop of `Reader.readRecord` for a quoted field, entered behind the
opening quote: `line` is what is left of the current line, `rest` the input
behind it, `buf` the field so far.  A doubled quote is a quote of the field, a
quote before a comma ends the field, a quote at the end of the line ends the
record, any other quote is `ErrQuote`; a line without a quote belongs to the
field and the next line is read; the end of the input inside the field is
`ErrQuote`.  `none` means the fuel ran out. -/
def readQuoted : Nat → List Char → List Char → List Char → Option Quoted
  | 0, _, _, _ => none
  | fuel + 1, line, rest, buf =>
    match line.dropWhile (fun c => c ≠ '"') with
    | _ :: after =>
      let buf := buf ++ line.takeWhile (fun c => c ≠ '"')
      match after with
      | '"' :: after' => readQuoted fuel after' rest (buf ++ ['"'])
      | ',' :: after' => some (.comma buf after' rest)
      | _ =>
        if lenNewline after = after.length then some (.endOfLine buf rest)
        else some (.error .ErrQuote)
    | [] =>
      if line ≠ [] then
        match readLine rest with
        | some (line', rest') => readQuoted fuel line' rest' (buf ++ line)
        | none => readQuoted fuel [] [] (buf ++ line)
      else some (.error .ErrQuote)

/-- What a finished scan of a quoted field leaves to read, measured against what
was there when it began. -/
def Quoted.within (bound restBound : Nat) : Quoted → Prop
  | .comma _ line rest => line.length + rest.length + 1 ≤ bound ∧ rest.length ≤ restBound
  | .endOfLine _ rest => rest.length ≤ restBound
  | .error _ => True

/-- The loop `parseField` of `Reader.readRecord` with `TrimLeadingSpace = true`
and `LazyQuotes = false`: the fields of one record, starting in `line`, and the
input left behind the record. -/
def parseFields : Nat → List Char → List Char → List String →
    Option (Except CsvError (List String × List Char))
  | 0, _, _, _ => none
  | fuel + 1, line, rest, fields =>
    match line.dropWhile IsSpace with
    | '"' :: line' =>
      match readQuoted fuel line' rest [] with
      | none => none
      | some (.comma field next rest') =>
        parseFields fuel next rest' (fields ++ [String.mk field])
      | some (.endOfLine field rest') => some (.ok (fields ++ [String.mk field], rest'))
      | some (.error err) => some (.error err)
    | trimmed =>
      match trimmed.dropWhile (fun c => c ≠ ',') with
      | _ :: after =>
        let field := trimmed.takeWhile (fun c => c ≠ ',')
        if field.contains '"' then some (.error .ErrBareQuote)
        else parseFields fuel after rest (fields ++ [String.mk field])
      | [] =>
        let field := trimmed.take (trimmed.length - lenNewline trimmed)
        if field.contains '"' then some (.error .ErrBareQuote)
        else some (.ok (fields ++ [String.mk field], rest))

/-- The first loop of `Reader.readRecord`: read lines until one is not empty.
`some none` is `io.EOF`. -/
def skipEmptyLines : Nat → List Char → Option (Option (List Char × List Char))
  | 0, _ => none
  | fuel + 1, input =>
    match readLine input with
    | none => some none
    | some (line, rest) =>
      if line.length = lenNewline line then skipEmptyLines fuel rest
      else some (some (line, rest))

/-- The loop of `Reader.ReadAll` with the reader's running `FieldsPerRecord`
(0 until the first record sets it). -/
def readAllLoop : Nat → List Char → Nat → List (List String) →
    Option (Except CsvError (List (List String)))
  | 0, _, _, _ => none
  | fuel + 1, input, fieldsPerRecord, records =>
    match skipEmptyLines fuel input with
    | none => none
    | some none => some (.ok records)
    | some (some (line, rest)) =>
      match parseFields fuel line rest [] with
      | none => none
      | some (.error err) => some (.error err)
      | some (.ok (record, rest')) =>
        if 0 < fieldsPerRecord ∧ record.length ≠ fieldsPerRecord then
          some (.error .ErrFieldCount)
        else
          readAllLoop fuel rest' (if fieldsPerRecord = 0 then record.length else fieldsPerRecord)
            (records ++ [record])

/-- `Reader.ReadAll` of encoding/csv on a reader made by `csv.NewReader` with
`TrimLeadingSpace = true` (`ReuseRecord` has no effect on `ReadAll`).  The fuel
`input.length + 2` is enough for every loop, each round of which uses up input
(`ReadAll_total`), so the result is never `none`. -/
def ReadAll (input : List Char) : Option (Except CsvError (List (List String))) :=
  readAllLoop (input.length + 2) input 0 []

/-! ## The service -/

/-- The Go struct `service.VoucherServiceImpl`: the repository it calls, together
with what its other collaborators compute: the message
`helper.GenerateValidationErrors` builds for a rejected request, and the Unicode
folding orbit consulted by `strings.EqualFold`. -/
structure VoucherServiceImpl (σ ε : Type) where
  VoucherRepository : VoucherRepository σ ε
  GenerateValidationErrors : VoucherRequest → String
  foldOrbit : Char → Char → Bool

/-- The mapping from an entity to `dto.VoucherResponse` that every service
operation writes out field by field. -/
def toResponse (v : Voucher) : VoucherResponse :=
  { ID := v.ID, Code := v.Code, DiscountPercent := v.DiscountPercent,
    ExpiryDate := v.ExpiryDate, CreatedAt := some v.CreatedAt, UpdatedAt := some v.UpdatedAt }

/-- `VoucherServiceImpl.CreateVoucher`; `now 0` and `now 1` are the two readings
of `time.Now()`. -/
def CreateVoucher {σ ε : Type} (svc : VoucherServiceImpl σ ε) (now : Nat → Time) (s : σ)
    (a : VoucherRequest) : Except (ServiceError ε) VoucherResponse × σ :=
  if Validate.Struct a = false then
    (.error (.fiber StatusBadRequest (svc.GenerateValidationErrors a)), s)
  else
    match svc.VoucherRepository.CheckVoucherIfExist s a.Code with
    | .error err => (.error (.store err), s)
    | .ok true => (.error conflictError, s)
    | .ok false =>
      let newVoucher : Voucher :=
        { ID := "", Code := a.Code, DiscountPercent := a.DiscountPercent,
          ExpiryDate := a.ExpiryDate, CreatedAt := now 0, UpdatedAt := now 1 }
      match svc.VoucherRepository.CreateVoucher s newVoucher with
      | (.error err, s') => (.error (.store err), s')
      | (.ok res, s') => (.ok (toResponse res), s')

/-- `VoucherServiceImpl.GetVouchers`.  The result is `none` when the Go code
faults on the division by `size = 0`. -/
def GetVouchers {σ ε : Type} (svc : VoucherServiceImpl σ ε) (s : σ) (page size : Int)
    (search order : String) :
    Option (Except (ServiceError ε) (List VoucherResponse × PageMetadata)) :=
  let offset := wrapInt64 ((page - 1) * size)
  match svc.VoucherRepository.GetVouchers s size offset search order with
  | .error _ =>
    some (.error (.fiber StatusInternalServerError "Failed to retrieve vouchers."))
  | .ok (vouchers, total) =>
    let responses := vouchers.map toResponse
    if size = 0 then none
    else
      let totalPages := wrapInt64 (Int.tdiv (wrapInt64 (wrapInt64 (total + size) - 1)) size)
      some (.ok (responses,
        { Page := page, Size := size, TotalItem := total, TotalPage := totalPages,
          HasNext := decide (page < totalPages), HasPrevious := decide (page > 1) }))

/-- `VoucherServiceImpl.GetVoucherById`. -/
def GetVoucherById {σ ε : Type} (svc : VoucherServiceImpl σ ε) (s : σ) (id : String) :
    Except (ServiceError ε) VoucherResponse :=
  match svc.VoucherRepository.GetVoucherById s id with
  | .error err => .error (.store err)
  | .ok v => .ok (toResponse v)

/-- `VoucherServiceImpl.DeleteVoucher`. -/
def DeleteVoucher {σ ε : Type} (svc : VoucherServiceImpl σ ε) (s : σ) (id : String) :
    Except (ServiceError ε) Unit × σ :=
  match svc.VoucherRepository.DeleteVoucher s id with
  | (.error err, s') => (.error (.store err), s')
  | (.ok (), s') => (.ok (), s')

/-- `VoucherServiceImpl.UpdateVoucher`; `now 0` is the reading of `time.Now()`. -/
def UpdateVoucher {σ ε : Type} (svc : VoucherServiceImpl σ ε) (now : Nat → Time) (s : σ)
    (id : String) (req : VoucherRequest) : Except (ServiceError ε) VoucherResponse × σ :=
  if Validate.Struct req = false then
    (.error (.fiber StatusBadRequest "validation error"), s)
  else
    match svc.VoucherRepository.GetVoucherById s id with
    | .error err => (.error (.store err), s)
    | .ok existing =>
      let recheck : Except (ServiceError ε) Unit :=
        if EqualFold svc.foldOrbit existing.Code req.Code = false then
          match svc.VoucherRepository.CheckVoucherIfExist s req.Code with
          | .error err => .error (.store err)
          | .ok true => .error conflictError
          | .ok false => .ok ()
        else .ok ()
      match recheck with
      | .error err => (.error err, s)
      | .ok () =>
        let existing' : Voucher :=
          { existing with
            Code := req.Code, DiscountPercent := req.DiscountPercent,
            ExpiryDate := req.ExpiryDate, UpdatedAt := now 0 }
        match svc.VoucherRepository.UpdateVoucher s existing' with
        | (.error err, s') => (.error (.store err), s')
        | (.ok updated, s') => (.ok (toResponse updated), s')

/-- The loop `for i, record := range records[1:]` of
`VoucherServiceImpl.ImportFromCSV`, from data row `i` on, with the counters and
failed rows gathered so far; `tick` counts the readings of `time.Now()` taken.
The result is the report built after the loop, and the store state. -/
def importRows {σ ε : Type} (svc : VoucherServiceImpl σ ε) (now : Nat → Time) :
    List (List String) → Int → Nat → σ → Int → Int → List CSVFailedRow →
      CSVImportReport × σ
  | [], _, _, s, successCount, failedCount, failedRows =>
    ({ SuccessCount := successCount, FailedCount := failedCount, FailedRows := failedRows }, s)
  | record :: rest, i, tick, s, successCount, failedCount, failedRows =>
    if record.length < 3 then
      importRows svc now rest (i + 1) tick s successCount (failedCount + 1)
        (failedRows ++ [{ Row := i + 2, Reason := "Incomplete data" }])
    else
      match Atoi (record.getD 1 "") with
      | none =>
        importRows svc now rest (i + 1) tick s successCount (failedCount + 1)
          (failedRows ++ [{ Row := i + 2, Reason := "Invalid discount percent" }])
      | some discount =>
        if discount < 1 ∨ discount > 100 then
          importRows svc now rest (i + 1) tick s successCount (failedCount + 1)
            (failedRows ++ [{ Row := i + 2, Reason := "Invalid discount percent" }])
        else
          match Parse (record.getD 2 "") with
          | none =>
            importRows svc now rest (i + 1) tick s successCount (failedCount + 1)
              (failedRows ++ [{ Row := i + 2, Reason := "Invalid expiry date format" }])
          | some expiry =>
            let voucher : Voucher :=
              { ID := "", Code := record.getD 0 "", DiscountPercent := discount,
                ExpiryDate := expiry, CreatedAt := now tick, UpdatedAt := now (tick + 1) }
            match svc.VoucherRepository.CreateVoucher s voucher with
            | (.error _, s') =>
              importRows svc now rest (i + 1) (tick + 2) s' successCount (failedCount + 1)
                (failedRows ++ [{ Row := i + 2, Reason := "Database error or duplicate code" }])
            | (.ok _, s') =>
              importRows svc now rest (i + 1) (tick + 2) s' (successCount + 1) failedCount
                failedRows

/-- The part of `VoucherServiceImpl.ImportFromCSV` that follows `reader.ReadAll()`:
slicing off the first record, which faults (`none`) when there is no record at
all, then the loop and the report. -/
def importRecords {σ ε : Type} (svc : VoucherServiceImpl σ ε) (now : Nat → Time) (s : σ)
    (records : List (List String)) : Option (CSVImportReport × σ) :=
  match records with
  | [] => none
  | _ :: rows => some (importRows svc now rows 0 0 s 0 0 [])

/-- `VoucherServiceImpl.ImportFromCSV`; `file` is the result of `file.Open()`, the
bytes of the upload or the error of opening it.  The result is `none` when the
call does not return: the Go code faults on `records[1:]` when the reader
returned no record. -/
def ImportFromCSV {σ ε : Type} (svc : VoucherServiceImpl σ ε) (now : Nat → Time) (s : σ)
    (file : Except String (List Char)) :
    Option (Except (ServiceError ε) CSVImportReport × σ) :=
  match file with
  | .error err => some (.error (.upload err), s)
  | .ok f =>
    match ReadAll f with
    | none => none
    | some (.error err) => some (.error (.csv err), s)
    | some (.ok records) =>
      match importRecords svc now s records with
      | none => none
      | some (report, s') => some (.ok report, s')

/-- The record `ExportToCSV` writes for a voucher. -/
def exportRecord (v : Voucher) : List String :=
  [v.Code, Itoa v.DiscountPercent, v.ExpiryDate.Format]

/-- `VoucherServiceImpl.ExportToCSV`.  The writer fills a `bytes.Buffer`, so
`writer.Error()` after `Flush` is `nil`. -/
def ExportToCSV {σ ε : Type} (svc : VoucherServiceImpl σ ε) (s : σ) :
    Except (ServiceError ε) (List Char) :=
  match svc.VoucherRepository.FindAll s "" "asc" with
  | .error err => .error (.store err)
  | .ok vouchers =>
    let buffer := Writer.Write [] ["voucher_code", "discount_percent", "expiry_date"]
    .ok (vouchers.foldl (fun buffer v => Writer.Write buffer (exportRecord v)) buffer)

/-! ## The import contract, in the words of the specification -/

/-- Specification of the per-row checks: the reason of the first check a data row
fails, in the order columns, percent, date; `none` when it passes all three. -/
def specRowCheck (record : List String) : Option String :=
  if record.length < 3 then some "Incomplete data"
  else if (match Atoi (record.getD 1 "") with
           | some n => decide (1 ≤ n ∧ n ≤ 100)
           | none => false) = false then some "Invalid discount percent"
  else if Parse (record.getD 2 "") = none then some "Invalid expiry date format"
  else none

/-- Specification: the voucher a data row that passed the checks asks the store
to create. -/
def specRowVoucher (now : Nat → Time) (tick : Nat) (record : List String) : Voucher :=
  { ID := "", Code := record.getD 0 "", DiscountPercent := (Atoi (record.getD 1 "")).getD 0,
    ExpiryDate := (Parse (record.getD 2 "")).getD Time.zero,
    CreatedAt := now tick, UpdatedAt := now (tick + 1) }

/-- Specification of a batch: the outcome of every data row in source order,
`some reason` for a failing row and `none` for a success, each row handled on
the store state left by the rows before it. -/
def specOutcomes {σ ε : Type} (svc : VoucherServiceImpl σ ε) (now : Nat → Time) :
    σ → Nat → List (List String) → List (Option String)
  | _, _, [] => []
  | s, tick, record :: rest =>
    match specRowCheck record with
    | some reason => some reason :: specOutcomes svc now s tick rest
    | none =>
      match svc.VoucherRepository.CreateVoucher s (specRowVoucher now tick record) with
      | (.error _, s') =>
        some "Database error or duplicate code" :: specOutcomes svc now s' (tick + 2) rest
      | (.ok _, s') => none :: specOutcomes svc now s' (tick + 2) rest

/-- Specification of the failed-row list: the failing outcomes in order, the row
at position `j` of the list numbered `k + j`. -/
def failuresFrom (k : Int) : List (Option String) → List CSVFailedRow
  | [] => []
  | none :: outcomes => failuresFrom (k + 1) outcomes
  | some reason :: outcomes => { Row := k, Reason := reason } :: failuresFrom (k + 1) outcomes

/-! ## The export contract, in the words of the specification -/

/-- Specification of a CSV text: the records in order, each written as its
fields joined by commas and ended by a line feed. -/
def csvText (records : List (List String)) : List Char :=
  (records.map (fun record => writeFields record ++ ['\n'])).flatten

/-- The header record of the export. -/
def exportHeader : List String := ["voucher_code", "discount_percent", "expiry_date"]

/-! ## The repository over a table -/

/-- Errors of the database layer (gorm over PostgreSQL) that the table model can
raise. -/
inductive DBError where
  | ErrRecordNotFound
  | uniqueViolation (constraint : String)
  | checkViolation (constraint : String)
  | valueTooLong
deriving DecidableEq, Repr

/-- The `vouchers` table: its rows in insertion order, and the number of write
statements executed so far, which indexes the identifiers and clock readings the
database layer produces. -/
structure DB where
  rows : List Voucher
  writes : Nat
deriving DecidableEq, Repr

/-- What the database layer contributes besides the rows: the identifier
`uuid_generate_v4()` returns for the n-th write, the clock reading gorm stamps
into `UpdatedAt` on the n-th write, and the SQL predicate
`LOWER(code) LIKE pattern` as a function of the pattern and the code. -/
structure Gorm where
  uuid : Nat → String
  nowFunc : Nat → Time
  lowerLike : String → String → Bool

/-- The column and table constraints declared on `entity.Voucher`: `size:100` on
the code and `check:discount_percent >= 0 AND discount_percent <= 100`. -/
def columnsOK (v : Voucher) : Except DBError Unit :=
  if 100 < v.Code.length then .error .valueTooLong
  else if ¬ (0 ≤ v.DiscountPercent ∧ v.DiscountPercent ≤ 100) then
    .error (.checkViolation "discount_percent")
  else .ok ()

/-- Comparison of two timestamps of one table by their wall reading (rows read in
one session carry the same location). -/
def Time.le (a b : Time) : Prop :=
  toLex (a.year, toLex (a.month, toLex (a.day, a.nanos)))
    ≤ toLex (b.year, toLex (b.month, toLex (b.day, b.nanos)))

instance : DecidableRel Time.le := fun a b => by unfold Time.le; infer_instance

/-- `ORDER BY created_at ASC`. -/
def createdAsc (a b : Voucher) : Prop := Time.le a.CreatedAt b.CreatedAt

/-- `ORDER BY created_at DESC`. -/
def createdDesc (a b : Voucher) : Prop := Time.le b.CreatedAt a.CreatedAt

instance : DecidableRel createdAsc := fun a b => by unfold createdAsc; infer_instance

instance : DecidableRel createdDesc := fun a b => by unfold createdDesc; infer_instance

/-- The `WHERE LOWER(code) LIKE ?` clause both listing queries add when `search`
is not empty; the pattern is `"%" + strings.ToLower(search) + "%"`, left to the
database to interpret. -/
def whereSearch (g : Gorm) (search : String) (rows : List Voucher) : List Voucher :=
  if search ≠ "" then rows.filter (fun v => g.lowerLike search v.Code) else rows

/-- The `Order` clause both listing queries add. -/
def orderRows (order : String) (rows : List Voucher) : List Voucher :=
  if order = "asc" then rows.insertionSort createdAsc else rows.insertionSort createdDesc

/-- gorm's `Limit(size).Offset(offset)`: a negative limit means no limit, and an
offset that is not positive is left out of the query. -/
def limitOffset (size offset : Int) (rows : List Voucher) : List Voucher :=
  let skipped := rows.drop offset.toNat
  if 0 ≤ size then skipped.take size.toNat else skipped

/-- `VoucherRepositoryImpl.CreateVoucher`: `DB.Create(a)`, which fills in the
identifier when `a.ID` is empty. -/
def VoucherRepositoryImpl.CreateVoucher (g : Gorm) (db : DB) (a : Voucher) :
    Except DBError Voucher × DB :=
  let row : Voucher := if a.ID = "" then { a with ID := g.uuid db.writes } else a
  match columnsOK row with
  | .error err => (.error err, db)
  | .ok () =>
    if db.rows.any (fun v => decide (v.ID = row.ID)) then
      (.error (.uniqueViolation "vouchers_pkey"), db)
    else if db.rows.any (fun v => decide (v.Code = row.Code)) then
      (.error (.uniqueViolation "idx_vouchers_code"), db)
    else (.ok row, { rows := db.rows ++ [row], writes := db.writes + 1 })

/-- `VoucherRepositoryImpl.CheckVoucherIfExist`: `Where("code = ?", code).First`. -/
def VoucherRepositoryImpl.CheckVoucherIfExist (db : DB) (code : String) :
    Except DBError Bool :=
  match db.rows.find? (fun v => decide (v.Code = code)) with
  | none => .ok false
  | some _ => .ok true

/-- `VoucherRepositoryImpl.GetVoucherById`: `First(&voucher, "id = ?", id)`. -/
def VoucherRepositoryImpl.GetVoucherById (db : DB) (id : String) : Except DBError Voucher :=
  match db.rows.find? (fun v => decide (v.ID = id)) with
  | none => .error .ErrRecordNotFound
  | some voucher => .ok voucher

/-- `VoucherRepositoryImpl.GetVouchers`. -/
def VoucherRepositoryImpl.GetVouchers (g : Gorm) (db : DB) (size offset : Int)
    (search order : String) : Except DBError (List Voucher × Int) :=
  let query := whereSearch g search db.rows
  let total : Int := query.length
  .ok (limitOffset size offset (orderRows order query), total)

/-- `VoucherRepositoryImpl.DeleteVoucher`: `Where("id = ?", id).Delete`. -/
def VoucherRepositoryImpl.DeleteVoucher (db : DB) (id : String) : Except DBError Unit × DB :=
  (.ok (), { rows := db.rows.filter (fun v => decide (v.ID ≠ id)), writes := db.writes + 1 })

/-- `VoucherRepositoryImpl.UpdateVoucher`: fetch the row by `updated.ID`, copy
code, percent and expiry into it, and `Save` it (which also stamps `UpdatedAt`). -/
def VoucherRepositoryImpl.UpdateVoucher (g : Gorm) (db : DB) (updated : Voucher) :
    Except DBError Voucher × DB :=
  match db.rows.find? (fun v => decide (v.ID = updated.ID)) with
  | none => (.error .ErrRecordNotFound, db)
  | some existing =>
    let existing' : Voucher :=
      { existing with
        Code := updated.Code, DiscountPercent := updated.DiscountPercent,
        ExpiryDate := updated.ExpiryDate, UpdatedAt := g.nowFunc db.writes }
    match columnsOK existing' with
    | .error err => (.error err, db)
    | .ok () =>
      if db.rows.any (fun v => decide (v.ID ≠ existing'.ID) && decide (v.Code = existing'.Code)) then
        (.error (.uniqueViolation "idx_vouchers_code"), db)
      else
        (.ok existing',
          { rows := db.rows.map (fun v => if v.ID = existing'.ID then existing' else v),
            writes := db.writes + 1 })

/-- `VoucherRepositoryImpl.FindAll`. -/
def VoucherRepositoryImpl.FindAll (g : Gorm) (db : DB) (search order : String) :
    Except DBError (List Voucher) :=
  .ok (orderRows order (whereSearch g search db.rows))

/-- `NewVoucherRepository`: the implementation as a `VoucherRepository`. -/
def NewVoucherRepository (g : Gorm) : VoucherRepository DB DBError where
  CreateVoucher := VoucherRepositoryImpl.CreateVoucher g
  CheckVoucherIfExist := VoucherRepositoryImpl.CheckVoucherIfExist
  GetVouchers := VoucherRepositoryImpl.GetVouchers g
  GetVoucherById := VoucherRepositoryImpl.GetVoucherById
  DeleteVoucher := VoucherRepositoryImpl.DeleteVoucher
  UpdateVoucher := VoucherRepositoryImpl.UpdateVoucher g
  FindAll := VoucherRepositoryImpl.FindAll g

/-! ## Export and import round trip: what is exported and what comes back -/

/-- No carriage return is directly followed by a line feed. -/
def noCRLF : List Char → Bool
  | '\r' :: '\n' :: _ => false
  | _ :: rest => noCRLF rest
  | [] => true

/-- The text of a quoted field from the code byte it has reached: the escaped
rest of the code, the closing quote, a comma and what follows in the file. -/
def quotedText (code tail : List Char) : List Char := escapeQuotes code ++ '"' :: ',' :: tail

/-- A record the reader gives back as written: three fields, the first free of a
carriage return followed by a line feed, the other two written without quotes. -/
def readable (record : List String) : Prop :=
  ∃ a b c : String, record = [a, b, c] ∧ noCRLF a.toList = true
    ∧ fieldNeedsQuotes b.toList = false ∧ fieldNeedsQuotes c.toList = false

/-- A voucher that survives the export and the import: it satisfies the column
constraints of the table it is stored in, its code has no carriage return
directly followed by a line feed, its percentage lies in 1..100, and its expiry
is a calendar date of a year in 0..9999. -/
def exportable (v : Voucher) : Prop :=
  columnsOK v = .ok () ∧ noCRLF v.Code.toList = true
    ∧ 1 ≤ v.DiscountPercent ∧ v.DiscountPercent ≤ 100
    ∧ 0 ≤ v.ExpiryDate.year ∧ v.ExpiryDate.year ≤ 9999
    ∧ 1 ≤ v.ExpiryDate.month ∧ v.ExpiryDate.month ≤ 12
    ∧ 1 ≤ v.ExpiryDate.day ∧ v.ExpiryDate.day ≤ daysIn v.ExpiryDate.month v.ExpiryDate.year

/-- The rows an import of the exported vouchers adds to the table: identifier
from the database, the exported code and percentage, the expiry date at midnight
UTC, and the two clock readings of the row. -/
def importedRows (g : Gorm) (now : Nat → Time) : List Voucher → Nat → Nat → List Voucher
  | [], _, _ => []
  | v :: vs, writes, tick =>
    { ID := g.uuid writes, Code := v.Code, DiscountPercent := v.DiscountPercent,
      ExpiryDate := ⟨v.ExpiryDate.year, v.ExpiryDate.month, v.ExpiryDate.day, 0, 0⟩,
      CreatedAt := now tick, UpdatedAt := now (tick + 1) }
      :: importedRows g now vs (writes + 1) (tick + 2)

/-! ## Sample data used to evaluate the definitions -/

/-- A date at midnight UTC. -/
def Time.date (y : Int) (m d : Nat) : Time := ⟨y, m, d, 0, 0⟩

/-- A sample database layer: identifiers `id-0`, `id-1`, ..., a clock that shows
2025-06-01 plus `n` nanoseconds at the n-th write, and a `LIKE` that matches
everything. -/
def sampleGorm : Gorm where
  uuid := fun n => "id-" ++ toString n
  nowFunc := fun n => ⟨2025, 6, 1, n, 0⟩
  lowerLike := fun _ _ => true

/-- A second sample database layer, whose n-th identifier is a run of `n` letters
`i`, so that no two writes get the same identifier. -/
def tallyGorm : Gorm where
  uuid := fun n => String.mk (List.replicate n 'i')
  nowFunc := fun n => ⟨2025, 6, 1, n, 0⟩
  lowerLike := fun _ _ => true

/-- A sample clock for the service: 2025-05-01 plus `n` nanoseconds at the n-th
reading. -/
def sampleNow : Nat → Time := fun n => ⟨2025, 5, 1, n, 0⟩

/-- The service over a given repository, with a fixed validation message and no
folding outside ASCII. -/
def sampleService {σ ε : Type} (repo : VoucherRepository σ ε) : VoucherServiceImpl σ ε where
  VoucherRepository := repo
  GenerateValidationErrors := fun _ => "validation failed"
  foldOrbit := fun _ _ => false

/-- The service over the table-backed repository. -/
def tableService : VoucherServiceImpl DB DBError := sampleService (NewVoucherRepository sampleGorm)

/-- The empty table. -/
def emptyDB : DB := { rows := [], writes := 0 }

/-- A repository whose listing reports `total` matching rows and an empty page. -/
def countingRepo (total : Int) : VoucherRepository Unit Unit where
  CreateVoucher := fun s v => (.ok v, s)
  CheckVoucherIfExist := fun _ _ => .ok false
  GetVouchers := fun _ _ _ _ _ => .ok ([], total)
  GetVoucherById := fun _ _ => .error ()
  DeleteVoucher := fun s _ => (.ok (), s)
  UpdateVoucher := fun s v => (.ok v, s)
  FindAll := fun _ _ _ => .ok []

/-- A sample voucher. -/
def sampleVoucher : Voucher :=
  ⟨"id-0", "SAVE10", 10, Time.date 2030 1 1, sampleNow 0, sampleNow 1⟩

/-- A repository with one injected fault: the call numbered `fault` fails with
the error `"store down"` (1 `CheckVoucherIfExist`, 2 `CreateVoucher`,
3 `GetVoucherById`, 4 `UpdateVoucher`, 5 `DeleteVoucher`, 6 `GetVouchers`,
7 `FindAll`), every other call succeeds. -/
def faultyRepo (fault : Nat) : VoucherRepository Unit String where
  CheckVoucherIfExist := fun _ _ => if fault = 1 then .error "store down" else .ok false
  CreateVoucher := fun s v => if fault = 2 then (.error "store down", s) else (.ok v, s)
  GetVoucherById := fun _ _ => if fault = 3 then .error "store down" else .ok sampleVoucher
  UpdateVoucher := fun s v => if fault = 4 then (.error "store down", s) else (.ok v, s)
  DeleteVoucher := fun s _ => if fault = 5 then (.error "store down", s) else (.ok (), s)
  GetVouchers := fun _ _ _ _ _ => if fault = 6 then .error "store down" else .ok ([], 0)
  FindAll := fun _ _ _ => if fault = 7 then .error "store down" else .ok []

/-- A table with two vouchers, the second created after the first. -/
def twoRows : DB :=
  { rows := [⟨"id-0", "SAVE10", 10, Time.date 2030 1 1, sampleNow 0, sampleNow 0⟩,
             ⟨"id-1", "WELCOME", 5, Time.date 2031 1 1, sampleNow 7, sampleNow 7⟩],
    writes := 2 }

/-! ## Theorems -/

/-! ### Page metadata -/

/-- Truncated division of a non-negative numerator computes the ceiling when the
numerator is first raised by `size - 1`. -/
theorem tdiv_ceil (total size : Int) (ht : 0 ≤ total) (hs : 1 ≤ size) :
    Int.tdiv (total + size - 1) size = ⌈(total : ℚ) / (size : ℚ)⌉ := by
  have hs0 : (0 : ℚ) < (size : ℚ) := by exact_mod_cast (by omega : 0 < size)
  have hnum : 0 ≤ total + size - 1 := by omega
  rw [Int.tdiv_eq_ediv hnum (by omega)]
  symm
  rw [Int.ceil_eq_iff]
  have hdm := Int.emod_add_ediv (total + size - 1) size
  have hm0 := Int.emod_nonneg (total + size - 1) (by omega : size ≠ 0)
  have hm1 := Int.emod_lt_of_pos (total + size - 1) (by omega : 0 < size)
  set q := (total + size - 1) / size with hq
  set r := (total + size - 1) % size with hr
  have ht' : total = size * q + r - size + 1 := by omega
  constructor
  · rw [lt_div_iff₀ hs0]
    have : (q - 1) * size < total := by
      rw [ht']; nlinarith
    exact_mod_cast this
  · rw [div_le_iff₀ hs0]
    have : total ≤ q * size := by
      rw [ht']; nlinarith
    exact_mod_cast this

/-- Page metadata while the ceiling computation stays inside 64 bits: for
`page ≥ 1`, `size ≥ 1` and a reported `total ≥ 0` with `total + size - 1` at most
`maxInt64`, the metadata is `Page = page`, `Size = size`, `TotalItem = total`,
`TotalPage = ceil(total/size)`, `HasNext = (page < TotalPage)` and
`HasPrevious = (page > 1)`. -/
theorem GetVouchers_meta_in_range {σ ε : Type} (svc : VoucherServiceImpl σ ε) (s : σ)
    (page size total : Int) (search order : String) (vs : List Voucher)
    (_hp : 1 ≤ page) (hs : 1 ≤ size) (ht : 0 ≤ total) (hfit : total + size - 1 ≤ maxInt64)
    (hstore : svc.VoucherRepository.GetVouchers s size (wrapInt64 ((page - 1) * size)) search order
      = .ok (vs, total)) :
    GetVouchers svc s page size search order
      = some (.ok (vs.map toResponse,
          { Page := page, Size := size, TotalItem := total,
            TotalPage := ⌈(total : ℚ) / (size : ℚ)⌉,
            HasNext := decide (page < ⌈(total : ℚ) / (size : ℚ)⌉),
            HasPrevious := decide (page > 1) })) := by
  have hfit' : total + size - 1 ≤ 2 ^ 63 - 1 := hfit
  have h2 : wrapInt64 (wrapInt64 (total + size) - 1) = total + size - 1 := by
    unfold wrapInt64; omega
  have hq0 : 0 ≤ Int.tdiv (total + size - 1) size := by
    rw [Int.tdiv_eq_ediv (by omega) (by omega)]
    exact Int.ediv_nonneg (by omega) (by omega)
  have hq1 : Int.tdiv (total + size - 1) size ≤ total + size - 1 := by
    rw [Int.tdiv_eq_ediv (by omega) (by omega)]
    exact Int.ediv_le_self _ (by omega)
  have h3 : wrapInt64 (Int.tdiv (total + size - 1) size) = Int.tdiv (total + size - 1) size := by
    unfold wrapInt64; omega
  have hne : size ≠ 0 := by omega
  simp only [GetVouchers, hstore, hne, if_false, h2, h3]
  rw [tdiv_ceil total size ht hs]

theorem GetVouchers_meta_in_range_witness :
    GetVouchers (sampleService (countingRepo 25)) () 1 10 "" "asc"
        = some (.ok ([],
            { Page := 1, Size := 10, TotalItem := 25, TotalPage := 3,
              HasNext := true, HasPrevious := false }))
      ∧ GetVouchers (sampleService (countingRepo 25)) () 3 10 "" "asc"
        = some (.ok ([],
            { Page := 3, Size := 10, TotalItem := 25, TotalPage := 3,
              HasNext := false, HasPrevious := true })) := by
  constructor <;> rfl

/-- C1 (evaluation at the failing input): with 25 matching rows and the page size
`9223372036854775807`, the sum `total + size - 1` leaves the 64-bit range and
`GetVouchers` reports `TotalPage = 0`, although `ceil(25 / size) = 1`. -/
theorem GetVouchers_meta_overflow :
    GetVouchers (sampleService (countingRepo 25)) () 1 maxInt64 "" "asc"
        = some (.ok ([],
            { Page := 1, Size := maxInt64, TotalItem := 25, TotalPage := 0,
              HasNext := false, HasPrevious := false }))
      ∧ ⌈((25 : Int) : ℚ) / ((maxInt64 : Int) : ℚ)⌉ = 1 := by
  constructor
  · rfl
  · rw [Int.ceil_eq_iff]
    unfold maxInt64
    norm_num

/-! ### Request validation -/

theorem Validate_Struct_iff (a : VoucherRequest) :
    Validate.Struct a = true
      ↔ a.Code ≠ "" ∧ a.DiscountPercent ≠ 0 ∧ a.ExpiryDate ≠ Time.zero := by
  simp [Validate.Struct, and_assoc]

/-- Requests with a percentage in `[1,100]`, a non-empty code and a present expiry
pass validation, and a request with percentage `0` is turned away by both
operations with a Bad Request error, the store left as it was. -/
theorem validation_in_range_and_zero {σ ε : Type} (svc : VoucherServiceImpl σ ε)
    (now : Nat → Time) (s : σ) (id : String) (a : VoucherRequest) :
    ((1 ≤ a.DiscountPercent ∧ a.DiscountPercent ≤ 100 ∧ a.Code ≠ "" ∧ a.ExpiryDate ≠ Time.zero)
        → Validate.Struct a = true)
      ∧ (a.DiscountPercent = 0 →
          CreateVoucher svc now s a
              = (.error (.fiber StatusBadRequest (svc.GenerateValidationErrors a)), s)
            ∧ UpdateVoucher svc now s id a
              = (.error (.fiber StatusBadRequest "validation error"), s)) := by
  constructor
  · rintro ⟨h1, _, h3, h4⟩
    rw [Validate_Struct_iff]
    exact ⟨h3, by omega, h4⟩
  · intro h0
    have hv : Validate.Struct a = false := by
      simp [Validate.Struct, h0]
    simp [CreateVoucher, UpdateVoucher, hv]

/-- C2 (evaluation at the failing input): a request with `discountPercent = 101`
(or `-5`) passes `Validate.Struct`; `CreateVoucher` and `UpdateVoucher` go on to
the store, where the table's check constraint, not validation, turns `101` away,
and a store without that constraint (here `countingRepo`) accepts it. -/
theorem validation_accepts_percent_101 :
    Validate.Struct ⟨"PROMO", 101, Time.date 2030 1 1⟩ = true
      ∧ Validate.Struct ⟨"PROMO", -5, Time.date 2030 1 1⟩ = true
      ∧ (CreateVoucher tableService sampleNow emptyDB ⟨"PROMO", 101, Time.date 2030 1 1⟩).1
          = .error (.store (.checkViolation "discount_percent"))
      ∧ (UpdateVoucher tableService sampleNow
            { rows := [⟨"id-0", "PROMO", 10, Time.date 2030 1 1, sampleNow 0, sampleNow 1⟩],
              writes := 1 }
            "id-0" ⟨"PROMO", 101, Time.date 2030 1 1⟩).1
          = .error (.store (.checkViolation "discount_percent"))
      ∧ (CreateVoucher (sampleService (countingRepo 0)) sampleNow ()
            ⟨"PROMO", 101, Time.date 2030 1 1⟩).1
          = .ok ⟨"", "PROMO", 101, Time.date 2030 1 1, some (sampleNow 0), some (sampleNow 1)⟩ := by
  refine ⟨by decide, by decide, ?_, ?_, ?_⟩ <;> rfl

/-! ### Code uniqueness on create -/

theorem find?_code_isSome (rows : List Voucher) (code : String) :
    (rows.find? (fun v => decide (v.Code = code))).isSome = true
      ↔ ∃ v ∈ rows, v.Code = code := by
  simp [List.find?_isSome]

theorem CheckVoucherIfExist_eq (db : DB) (code : String) :
    VoucherRepositoryImpl.CheckVoucherIfExist db code
      = .ok (decide (∃ v ∈ db.rows, v.Code = code)) := by
  unfold VoucherRepositoryImpl.CheckVoucherIfExist
  cases h : db.rows.find? (fun v => decide (v.Code = code)) with
  | none =>
    have : ¬ ∃ v ∈ db.rows, v.Code = code := by
      rw [← find?_code_isSome, h]; simp
    simp [this]
  | some v =>
    have : ∃ v ∈ db.rows, v.Code = code := by
      rw [← find?_code_isSome, h]; simp
    simp [this]

/-- What a successful insert did: the stored row is the given record (with a
generated identifier when it had none), it satisfies the column constraints, no
earlier row had its code, and it was appended to the table. -/
theorem repo_CreateVoucher_ok (g : Gorm) (db db' : DB) (a res : Voucher)
    (h : VoucherRepositoryImpl.CreateVoucher g db a = (.ok res, db')) :
    res = (if a.ID = "" then { a with ID := g.uuid db.writes } else a)
      ∧ columnsOK res = .ok ()
      ∧ (∀ v ∈ db.rows, v.Code ≠ res.Code)
      ∧ db' = { rows := db.rows ++ [res], writes := db.writes + 1 } := by
  unfold VoucherRepositoryImpl.CreateVoucher at h
  generalize (if a.ID = "" then { a with ID := g.uuid db.writes } else a) = row at h ⊢
  simp only [] at h
  cases hc : columnsOK row with
  | error e => rw [hc] at h; simp at h
  | ok u =>
    rw [hc] at h
    simp only [] at h
    by_cases h1 : (db.rows.any (fun v => decide (v.ID = row.ID))) = true
    · rw [if_pos h1] at h; simp at h
    · rw [if_neg h1] at h
      by_cases h2 : (db.rows.any (fun v => decide (v.Code = row.Code))) = true
      · rw [if_pos h2] at h; simp at h
      · rw [if_neg h2] at h
        simp only [Prod.mk.injEq, Except.ok.injEq] at h
        obtain ⟨hr, hd⟩ := h
        subst hr
        refine ⟨rfl, hc, ?_, hd.symm⟩
        intro v hv hcode
        apply h2
        simp only [List.any_eq_true, decide_eq_true_eq]
        exact ⟨v, hv, hcode⟩

/-- C3 (the witness as the code runs it): `"SAVE10"` and `"save10"` are equal
under `strings.EqualFold`, yet after `"SAVE10"` was created the creation of
`"save10"` succeeds and the table holds both. -/
theorem CreateVoucher_case_variant_accepted :
    EqualFold tableService.foldOrbit "SAVE10" "save10" = true
      ∧ CreateVoucher tableService sampleNow emptyDB ⟨"SAVE10", 10, Time.date 2030 1 1⟩
          = (.ok ⟨"id-0", "SAVE10", 10, Time.date 2030 1 1, some (sampleNow 0), some (sampleNow 1)⟩,
              { rows := [⟨"id-0", "SAVE10", 10, Time.date 2030 1 1, sampleNow 0, sampleNow 1⟩],
                writes := 1 })
      ∧ CreateVoucher tableService sampleNow
            { rows := [⟨"id-0", "SAVE10", 10, Time.date 2030 1 1, sampleNow 0, sampleNow 1⟩],
              writes := 1 }
            ⟨"save10", 10, Time.date 2030 1 1⟩
          = (.ok ⟨"id-1", "save10", 10, Time.date 2030 1 1, some (sampleNow 0), some (sampleNow 1)⟩,
              { rows := [⟨"id-0", "SAVE10", 10, Time.date 2030 1 1, sampleNow 0, sampleNow 1⟩,
                         ⟨"id-1", "save10", 10, Time.date 2030 1 1, sampleNow 0, sampleNow 1⟩],
                writes := 2 }) := by
  refine ⟨by decide, ?_, ?_⟩ <;> rfl

/-- C3 (amended): on the table-backed repository uniqueness on create is by exact
match of the code.  For a valid request, `CreateVoucher` fails with Conflict and
leaves the table as it was when a stored voucher has exactly the requested code;
it does not fail with Conflict when no stored code is exactly the requested one;
and a successful create returns the code exactly as given. -/
theorem CreateVoucher_conflict_exact (g : Gorm) (gen : VoucherRequest → String)
    (orbit : Char → Char → Bool) (now : Nat → Time) (db : DB) (a : VoucherRequest)
    (hv : Validate.Struct a = true) :
    ((∃ v ∈ db.rows, v.Code = a.Code) →
        CreateVoucher ⟨NewVoucherRepository g, gen, orbit⟩ now db a = (.error conflictError, db))
      ∧ ((∀ v ∈ db.rows, v.Code ≠ a.Code) →
        (CreateVoucher ⟨NewVoucherRepository g, gen, orbit⟩ now db a).1 ≠ .error conflictError)
      ∧ (∀ r, (CreateVoucher ⟨NewVoucherRepository g, gen, orbit⟩ now db a).1 = .ok r →
        r.Code = a.Code) := by
  have hchk := CheckVoucherIfExist_eq db a.Code
  refine ⟨?_, ?_, ?_⟩
  · intro hex
    simp [CreateVoucher, hv, NewVoucherRepository, hchk, hex]
  · intro hno
    have hno' : ¬ ∃ v ∈ db.rows, v.Code = a.Code := by
      rintro ⟨v, hvm, hc⟩; exact hno v hvm hc
    simp only [CreateVoucher, hv, NewVoucherRepository, hchk, hno', decide_False]
    simp only [Bool.true_eq_false, if_false]
    split <;> simp_all [conflictError]
  · intro r
    by_cases hex : ∃ v ∈ db.rows, v.Code = a.Code
    · simp [CreateVoucher, hv, NewVoucherRepository, hchk, hex]
    · simp only [CreateVoucher, hv, NewVoucherRepository, hchk, hex, decide_False]
      simp only [Bool.true_eq_false, if_false]
      cases hcr : VoucherRepositoryImpl.CreateVoucher g db
          { ID := "", Code := a.Code, DiscountPercent := a.DiscountPercent,
            ExpiryDate := a.ExpiryDate, CreatedAt := now 0, UpdatedAt := now 1 } with
      | mk out db' =>
        cases out with
        | error e => simp
        | ok res =>
          have hres := (repo_CreateVoucher_ok g db db' _ res hcr).1
          simp only [Except.ok.injEq]
          intro h
          subst h
          rw [hres]
          simp [toResponse]

theorem CreateVoucher_conflict_exact_witness :
    CreateVoucher tableService sampleNow
        { rows := [⟨"id-0", "SAVE10", 10, Time.date 2030 1 1, sampleNow 0, sampleNow 1⟩],
          writes := 1 }
        ⟨"SAVE10", 25, Time.date 2031 1 1⟩
      = (.error conflictError,
          { rows := [⟨"id-0", "SAVE10", 10, Time.date 2030 1 1, sampleNow 0, sampleNow 1⟩],
            writes := 1 }) :=
  (CreateVoucher_conflict_exact sampleGorm (fun _ => "validation failed") (fun _ _ => false)
    sampleNow
    { rows := [⟨"id-0", "SAVE10", 10, Time.date 2030 1 1, sampleNow 0, sampleNow 1⟩],
      writes := 1 }
    ⟨"SAVE10", 25, Time.date 2031 1 1⟩ (by decide)).1
    ⟨⟨"id-0", "SAVE10", 10, Time.date 2030 1 1, sampleNow 0, sampleNow 1⟩, by simp, rfl⟩

/-! ### Conflict on update -/

theorem equalFoldRunes_refl (orbit : Char → Char → Bool) (l : List Char) :
    equalFoldRunes orbit l l = true := by
  induction l with
  | nil => rfl
  | cons c l ih => simp [equalFoldRunes, foldRunes, ih]

theorem EqualFold_refl (orbit : Char → Char → Bool) (s : String) :
    EqualFold orbit s s = true :=
  equalFoldRunes_refl orbit s.toList

/-- C4: for a valid request and an existing id, with the store's reads
answering, `UpdateVoucher` returns Conflict exactly when the requested code
differs from the existing record's code under `strings.EqualFold` and the store
reports that the requested code exists.  An update that keeps the code never
returns Conflict, and on Conflict the store state is the one the call started
from. -/
theorem UpdateVoucher_conflict_iff {σ ε : Type} (svc : VoucherServiceImpl σ ε)
    (now : Nat → Time) (s : σ) (id : String) (req : VoucherRequest) (existing : Voucher)
    (exists_ : Bool)
    (hv : Validate.Struct req = true)
    (hget : svc.VoucherRepository.GetVoucherById s id = .ok existing)
    (hchk : svc.VoucherRepository.CheckVoucherIfExist s req.Code = .ok exists_) :
    ((UpdateVoucher svc now s id req).1 = .error conflictError
        ↔ (EqualFold svc.foldOrbit existing.Code req.Code = false ∧ exists_ = true))
      ∧ (req.Code = existing.Code → (UpdateVoucher svc now s id req).1 ≠ .error conflictError)
      ∧ ((UpdateVoucher svc now s id req).1 = .error conflictError →
          (UpdateVoucher svc now s id req).2 = s) := by
  have key : (UpdateVoucher svc now s id req).1 = .error conflictError
      ↔ (EqualFold svc.foldOrbit existing.Code req.Code = false ∧ exists_ = true) := by
    unfold UpdateVoucher
    simp only [hv, hget, hchk, Bool.true_eq_false, if_false]
    cases hf : EqualFold svc.foldOrbit existing.Code req.Code <;> cases exists_ <;>
      simp only [if_true, if_false, Bool.true_eq_false, Bool.false_eq_true, and_self,
        and_false, false_and, iff_false, iff_true] <;>
      first
        | rfl
        | (cases svc.VoucherRepository.UpdateVoucher s
              { existing with
                Code := req.Code, DiscountPercent := req.DiscountPercent,
                ExpiryDate := req.ExpiryDate, UpdatedAt := now 0 } with
            | mk out s' => cases out <;> simp [conflictError])
  refine ⟨key, ?_, ?_⟩
  · intro hcode hconf
    have := (key.mp hconf).1
    rw [← hcode, EqualFold_refl] at this
    exact Bool.noConfusion this
  · intro hconf
    obtain ⟨hf, he⟩ := key.mp hconf
    subst he
    unfold UpdateVoucher
    simp [hv, hget, hchk, hf]

theorem UpdateVoucher_conflict_iff_witness :
    (UpdateVoucher tableService sampleNow
        { rows := [⟨"id-0", "SAVE10", 10, Time.date 2030 1 1, sampleNow 0, sampleNow 1⟩,
                   ⟨"id-1", "WELCOME", 5, Time.date 2030 1 1, sampleNow 0, sampleNow 1⟩],
          writes := 2 }
        "id-1" ⟨"SAVE10", 5, Time.date 2030 1 1⟩).1 = .error conflictError :=
  (UpdateVoucher_conflict_iff tableService sampleNow
    { rows := [⟨"id-0", "SAVE10", 10, Time.date 2030 1 1, sampleNow 0, sampleNow 1⟩,
               ⟨"id-1", "WELCOME", 5, Time.date 2030 1 1, sampleNow 0, sampleNow 1⟩],
      writes := 2 }
    "id-1" ⟨"SAVE10", 5, Time.date 2030 1 1⟩
    ⟨"id-1", "WELCOME", 5, Time.date 2030 1 1, sampleNow 0, sampleNow 1⟩ true
    (by decide) rfl rfl).1.mpr ⟨by decide, rfl⟩

/-! ### Propagation of store errors -/

/-- C7 (counterexample): the store's listing fails with `"store down"`, and
`GetVouchers` returns an Internal Server Error of its own instead of that
error. -/
theorem GetVouchers_replaces_store_error :
    (faultyRepo 6).GetVouchers () 10 (wrapInt64 ((1 - 1) * 10)) "" "asc" = .error "store down"
      ∧ GetVouchers (sampleService (faultyRepo 6)) () 1 10 "" "asc"
          = some (.error (.fiber StatusInternalServerError "Failed to retrieve vouchers."))
      ∧ GetVouchers (sampleService (faultyRepo 6)) () 1 10 "" "asc"
          ≠ some (.error (.store "store down")) := by
  refine ⟨rfl, rfl, ?_⟩
  intro h
  have h' : GetVouchers (sampleService (faultyRepo 6)) () 1 10 "" "asc"
      = some (.error (.fiber StatusInternalServerError "Failed to retrieve vouchers.")) := rfl
  rw [h'] at h
  simp at h

/-- C7 (amended): `CreateVoucher`, `GetVoucherById`, `UpdateVoucher` and
`DeleteVoucher` return the error `e` of a failing store call unchanged (for a
request that passed validation), whichever of their store calls fails;
`GetVouchers` returns the error
`fiber.NewError(500, "Failed to retrieve vouchers.")` whatever `e` is. -/
theorem store_errors_returned {σ ε : Type} (svc : VoucherServiceImpl σ ε) (now : Nat → Time)
    (s : σ) (id : String) (a : VoucherRequest) (e : ε) (hv : Validate.Struct a = true) :
    (svc.VoucherRepository.CheckVoucherIfExist s a.Code = .error e →
        CreateVoucher svc now s a = (.error (.store e), s))
      ∧ (∀ s', svc.VoucherRepository.CheckVoucherIfExist s a.Code = .ok false →
          svc.VoucherRepository.CreateVoucher s
              { ID := "", Code := a.Code, DiscountPercent := a.DiscountPercent,
                ExpiryDate := a.ExpiryDate, CreatedAt := now 0, UpdatedAt := now 1 }
            = (.error e, s') →
          CreateVoucher svc now s a = (.error (.store e), s'))
      ∧ (svc.VoucherRepository.GetVoucherById s id = .error e →
          GetVoucherById svc s id = .error (.store e))
      ∧ (svc.VoucherRepository.GetVoucherById s id = .error e →
          UpdateVoucher svc now s id a = (.error (.store e), s))
      ∧ (∀ existing, svc.VoucherRepository.GetVoucherById s id = .ok existing →
          EqualFold svc.foldOrbit existing.Code a.Code = false →
          svc.VoucherRepository.CheckVoucherIfExist s a.Code = .error e →
          UpdateVoucher svc now s id a = (.error (.store e), s))
      ∧ (∀ existing s', svc.VoucherRepository.GetVoucherById s id = .ok existing →
          (EqualFold svc.foldOrbit existing.Code a.Code = true
            ∨ svc.VoucherRepository.CheckVoucherIfExist s a.Code = .ok false) →
          svc.VoucherRepository.UpdateVoucher s
              { existing with
                Code := a.Code, DiscountPercent := a.DiscountPercent,
                ExpiryDate := a.ExpiryDate, UpdatedAt := now 0 }
            = (.error e, s') →
          UpdateVoucher svc now s id a = (.error (.store e), s'))
      ∧ (∀ s', svc.VoucherRepository.DeleteVoucher s id = (.error e, s') →
          DeleteVoucher svc s id = (.error (.store e), s'))
      ∧ (∀ page size search order,
          svc.VoucherRepository.GetVouchers s size (wrapInt64 ((page - 1) * size)) search order
            = .error e →
          GetVouchers svc s page size search order
            = some (.error (.fiber StatusInternalServerError "Failed to retrieve vouchers."))) := by
  refine ⟨?_, ?_, ?_, ?_, ?_, ?_, ?_, ?_⟩
  · intro h
    simp [CreateVoucher, hv, h]
  · intro s' h1 h2
    simp [CreateVoucher, hv, h1, h2]
  · intro h
    simp [GetVoucherById, h]
  · intro h
    simp [UpdateVoucher, hv, h]
  · intro existing h1 h2 h3
    simp [UpdateVoucher, hv, h1, h2, h3]
  · intro existing s' h1 h2 h3
    rcases h2 with h2 | h2
    · simp [UpdateVoucher, hv, h1, h2, h3]
    · cases hf : EqualFold svc.foldOrbit existing.Code a.Code <;>
        simp [UpdateVoucher, hv, h1, h2, h3, hf]
  · intro s' h
    simp [DeleteVoucher, h]
  · intro page size search order h
    simp [GetVouchers, h]

theorem store_errors_returned_witness :
    CreateVoucher (sampleService (faultyRepo 1)) sampleNow () ⟨"NEW", 10, Time.date 2030 1 1⟩
        = (.error (.store "store down"), ())
      ∧ CreateVoucher (sampleService (faultyRepo 2)) sampleNow () ⟨"NEW", 10, Time.date 2030 1 1⟩
        = (.error (.store "store down"), ())
      ∧ GetVoucherById (sampleService (faultyRepo 3)) () "id-0" = .error (.store "store down")
      ∧ UpdateVoucher (sampleService (faultyRepo 3)) sampleNow () "id-0"
          ⟨"NEW", 10, Time.date 2030 1 1⟩ = (.error (.store "store down"), ())
      ∧ UpdateVoucher (sampleService (faultyRepo 1)) sampleNow () "id-0"
          ⟨"NEW", 10, Time.date 2030 1 1⟩ = (.error (.store "store down"), ())
      ∧ UpdateVoucher (sampleService (faultyRepo 4)) sampleNow () "id-0"
          ⟨"NEW", 10, Time.date 2030 1 1⟩ = (.error (.store "store down"), ())
      ∧ DeleteVoucher (sampleService (faultyRepo 5)) () "id-0" = (.error (.store "store down"), ())
      ∧ GetVouchers (sampleService (faultyRepo 6)) () 1 10 "" "asc"
        = some (.error (.fiber StatusInternalServerError "Failed to retrieve vouchers.")) :=
  ⟨(store_errors_returned (sampleService (faultyRepo 1)) sampleNow () "id-0"
      ⟨"NEW", 10, Time.date 2030 1 1⟩ "store down" (by decide)).1 rfl,
   (store_errors_returned (sampleService (faultyRepo 2)) sampleNow () "id-0"
      ⟨"NEW", 10, Time.date 2030 1 1⟩ "store down" (by decide)).2.1 () rfl rfl,
   (store_errors_returned (sampleService (faultyRepo 3)) sampleNow () "id-0"
      ⟨"NEW", 10, Time.date 2030 1 1⟩ "store down" (by decide)).2.2.1 rfl,
   (store_errors_returned (sampleService (faultyRepo 3)) sampleNow () "id-0"
      ⟨"NEW", 10, Time.date 2030 1 1⟩ "store down" (by decide)).2.2.2.1 rfl,
   (store_errors_returned (sampleService (faultyRepo 1)) sampleNow () "id-0"
      ⟨"NEW", 10, Time.date 2030 1 1⟩ "store down" (by decide)).2.2.2.2.1 sampleVoucher rfl
      (by decide) rfl,
   (store_errors_returned (sampleService (faultyRepo 4)) sampleNow () "id-0"
      ⟨"NEW", 10, Time.date 2030 1 1⟩ "store down" (by decide)).2.2.2.2.2.1 sampleVoucher ()
      rfl (Or.inr rfl) rfl,
   (store_errors_returned (sampleService (faultyRepo 5)) sampleNow () "id-0"
      ⟨"NEW", 10, Time.date 2030 1 1⟩ "store down" (by decide)).2.2.2.2.2.2.1 () rfl,
   (store_errors_returned (sampleService (faultyRepo 6)) sampleNow () "id-0"
      ⟨"NEW", 10, Time.date 2030 1 1⟩ "store down" (by decide)).2.2.2.2.2.2.2 1 10 "" "asc" rfl⟩

/-! ### Listing order -/

theorem Time_le_total (a b : Time) : Time.le a b ∨ Time.le b a := by
  unfold Time.le
  exact le_total _ _

theorem Time_le_trans {a b c : Time} (h1 : Time.le a b) (h2 : Time.le b c) : Time.le a c := by
  unfold Time.le at *
  exact le_trans h1 h2

instance : IsTotal Voucher createdAsc := ⟨fun a b => Time_le_total a.CreatedAt b.CreatedAt⟩

instance : IsTrans Voucher createdAsc := ⟨fun _ _ _ h1 h2 => Time_le_trans h1 h2⟩

instance : IsTotal Voucher createdDesc := ⟨fun a b => Time_le_total b.CreatedAt a.CreatedAt⟩

instance : IsTrans Voucher createdDesc := ⟨fun _ _ _ h1 h2 => Time_le_trans h2 h1⟩

theorem orderRows_perm (order : String) (rows : List Voucher) :
    (orderRows order rows).Perm rows := by
  unfold orderRows
  split
  · exact List.perm_insertionSort _ _
  · exact List.perm_insertionSort _ _

theorem orderRows_sorted (order : String) (rows : List Voucher) :
    if order = "asc" then (orderRows order rows).Sorted createdAsc
    else (orderRows order rows).Sorted createdDesc := by
  unfold orderRows
  split
  · exact List.sorted_insertionSort _ _
  · exact List.sorted_insertionSort _ _

theorem limitOffset_sublist (size offset : Int) (rows : List Voucher) :
    (limitOffset size offset rows).Sublist rows := by
  unfold limitOffset
  simp only []
  split
  · exact (List.take_sublist _ _).trans (List.drop_sublist _ _)
  · exact List.drop_sublist _ _

/-- C8 (counterexample): with an order string that is neither `"asc"` nor
`"desc"` the store's `GetVouchers` and `FindAll`, and the service's
`GetVouchers` on top of it, list the later voucher first: descending, not
ascending. -/
theorem listing_unrecognised_order_descends :
    VoucherRepositoryImpl.GetVouchers sampleGorm twoRows 10 0 "" ""
        = .ok ([⟨"id-1", "WELCOME", 5, Time.date 2031 1 1, sampleNow 7, sampleNow 7⟩,
                ⟨"id-0", "SAVE10", 10, Time.date 2030 1 1, sampleNow 0, sampleNow 0⟩], 2)
      ∧ VoucherRepositoryImpl.FindAll sampleGorm twoRows "" "newest"
        = .ok [⟨"id-1", "WELCOME", 5, Time.date 2031 1 1, sampleNow 7, sampleNow 7⟩,
               ⟨"id-0", "SAVE10", 10, Time.date 2030 1 1, sampleNow 0, sampleNow 0⟩]
      ∧ GetVouchers tableService twoRows 1 10 "" ""
        = some (.ok ([⟨"id-1", "WELCOME", 5, Time.date 2031 1 1, some (sampleNow 7), some (sampleNow 7)⟩,
                      ⟨"id-0", "SAVE10", 10, Time.date 2030 1 1, some (sampleNow 0), some (sampleNow 0)⟩],
            { Page := 1, Size := 10, TotalItem := 2, TotalPage := 1,
              HasNext := false, HasPrevious := false }))
      ∧ ¬ createdAsc ⟨"id-1", "WELCOME", 5, Time.date 2031 1 1, sampleNow 7, sampleNow 7⟩
            ⟨"id-0", "SAVE10", 10, Time.date 2030 1 1, sampleNow 0, sampleNow 0⟩ := by
  refine ⟨?_, ?_, ?_, by decide⟩ <;> rfl

/-- C8 (amended): the store's `GetVouchers` and `FindAll` sort by `created_at`
ascending when the order string is exactly `"asc"` and descending for every other
order string (`"desc"`, the empty string, anything unrecognised); the listing is
a rearrangement of the rows that match the search, the page is cut out of it,
and the service's `GetVouchers` hands the order string to the store as it is and
returns that page. -/
theorem listing_order (g : Gorm) (gen : VoucherRequest → String) (orbit : Char → Char → Bool)
    (db : DB) (page size : Int) (search order : String) :
    ∃ all page_ total,
      VoucherRepositoryImpl.FindAll g db search order = .ok all
        ∧ VoucherRepositoryImpl.GetVouchers g db size (wrapInt64 ((page - 1) * size)) search order
            = .ok (page_, total)
        ∧ all.Perm (whereSearch g search db.rows)
        ∧ page_.Sublist all
        ∧ (if order = "asc" then all.Sorted createdAsc ∧ page_.Sorted createdAsc
            else all.Sorted createdDesc ∧ page_.Sorted createdDesc)
        ∧ (if size = 0 then
            GetVouchers ⟨NewVoucherRepository g, gen, orbit⟩ db page size search order = none
          else ∃ meta,
            GetVouchers ⟨NewVoucherRepository g, gen, orbit⟩ db page size search order
              = some (.ok (page_.map toResponse, meta))) := by
  refine ⟨orderRows order (whereSearch g search db.rows),
    limitOffset size (wrapInt64 ((page - 1) * size)) (orderRows order (whereSearch g search db.rows)),
    ((whereSearch g search db.rows).length : Int), rfl, rfl, orderRows_perm _ _,
    limitOffset_sublist _ _ _, ?_, ?_⟩
  · have hs := orderRows_sorted order (whereSearch g search db.rows)
    have hsub := limitOffset_sublist size (wrapInt64 ((page - 1) * size))
      (orderRows order (whereSearch g search db.rows))
    split
    · rename_i h
      rw [if_pos h] at hs
      exact ⟨hs, List.Pairwise.sublist hsub hs⟩
    · rename_i h
      rw [if_neg h] at hs
      exact ⟨hs, List.Pairwise.sublist hsub hs⟩
  · split
    · rename_i h
      simp [GetVouchers, NewVoucherRepository, VoucherRepositoryImpl.GetVouchers, h]
    · rename_i h
      simp [GetVouchers, NewVoucherRepository, VoucherRepositoryImpl.GetVouchers, h]

/-! ### Effect of an update -/

/-- What a successful `Save` through the repository did: the row found under the
identifier keeps its identifier and creation time, takes the three fields of the
argument, and replaces the old row in place. -/
theorem repo_UpdateVoucher_ok (g : Gorm) (db db' : DB) (updated res : Voucher)
    (h : VoucherRepositoryImpl.UpdateVoucher g db updated = (.ok res, db')) :
    ∃ old, db.rows.find? (fun v => decide (v.ID = updated.ID)) = some old
      ∧ res = { old with
                Code := updated.Code, DiscountPercent := updated.DiscountPercent,
                ExpiryDate := updated.ExpiryDate, UpdatedAt := g.nowFunc db.writes }
      ∧ db'.rows = db.rows.map (fun v => if v.ID = old.ID then res else v) := by
  unfold VoucherRepositoryImpl.UpdateVoucher at h
  cases hf : db.rows.find? (fun v => decide (v.ID = updated.ID)) with
  | none => rw [hf] at h; simp at h
  | some old =>
    rw [hf] at h
    simp only [] at h
    refine ⟨old, rfl, ?_⟩
    cases hc : columnsOK { old with
        Code := updated.Code, DiscountPercent := updated.DiscountPercent,
        ExpiryDate := updated.ExpiryDate, UpdatedAt := g.nowFunc db.writes } with
    | error e => rw [hc] at h; simp at h
    | ok u =>
      rw [hc] at h
      simp only [] at h
      split at h
      · simp at h
      · simp only [Prod.mk.injEq, Except.ok.injEq] at h
        obtain ⟨h1, h2⟩ := h
        refine ⟨h1.symm, ?_⟩
        rw [← h2, ← h1]

theorem find?_map_replace (rows : List Voucher) (id : String) (old new : Voucher)
    (hnew : new.ID = id) (hf : rows.find? (fun v => decide (v.ID = id)) = some old) :
    (rows.map (fun v => if v.ID = id then new else v)).find? (fun v => decide (v.ID = id))
      = some new := by
  induction rows with
  | nil => simp at hf
  | cons v rows ih =>
    by_cases hv : v.ID = id
    · simp [List.find?, hv, hnew]
    · simp only [List.find?, hv, decide_False] at hf
      simp [List.find?, hv, ih hf]

/-- C9: when `UpdateVoucher(id, req)` succeeds on the table-backed repository,
the table held a record `old` under `id`, afterwards holds a record `new` under
`id`, the returned value is the mapping of `new`, `new` has the identifier and
creation time of `old` and the code, percentage and expiry date of `req`, and
the table afterwards is the table before with `new` in the place of the record
under `id`: every other row is as it was. -/
theorem UpdateVoucher_frame (g : Gorm) (gen : VoucherRequest → String)
    (orbit : Char → Char → Bool) (now : Nat → Time) (db db' : DB) (id : String)
    (req : VoucherRequest) (r : VoucherResponse)
    (h : UpdateVoucher ⟨NewVoucherRepository g, gen, orbit⟩ now db id req = (.ok r, db')) :
    ∃ old new, db.rows.find? (fun v => decide (v.ID = id)) = some old
      ∧ db'.rows.find? (fun v => decide (v.ID = id)) = some new
      ∧ r = toResponse new
      ∧ new.ID = old.ID ∧ old.ID = id ∧ new.CreatedAt = old.CreatedAt
      ∧ new.Code = req.Code ∧ new.DiscountPercent = req.DiscountPercent
      ∧ new.ExpiryDate = req.ExpiryDate
      ∧ db'.rows = db.rows.map (fun v => if v.ID = id then new else v) := by
  unfold UpdateVoucher at h
  cases hv : Validate.Struct req with
  | false => simp [hv] at h
  | true =>
    simp only [hv, Bool.true_eq_false, if_false, NewVoucherRepository] at h
    cases hget : VoucherRepositoryImpl.GetVoucherById db id with
    | error e => simp [hget] at h
    | ok existing =>
      simp only [hget] at h
      have hfind : db.rows.find? (fun v => decide (v.ID = id)) = some existing := by
        unfold VoucherRepositoryImpl.GetVoucherById at hget
        cases hf : db.rows.find? (fun v => decide (v.ID = id)) with
        | none => rw [hf] at hget; simp at hget
        | some x => rw [hf] at hget; simp at hget; rw [hget]
      have hid : existing.ID = id := by
        have := List.find?_some hfind
        simpa using this
      split at h
      · simp at h
      · cases hup : VoucherRepositoryImpl.UpdateVoucher g db
            { existing with
              Code := req.Code, DiscountPercent := req.DiscountPercent,
              ExpiryDate := req.ExpiryDate, UpdatedAt := now 0 } with
        | mk out db2 =>
          rw [hup] at h
          cases out with
          | error e => simp at h
          | ok res =>
            simp only [Prod.mk.injEq, Except.ok.injEq] at h
            obtain ⟨hr, hdb⟩ := h
            subst hdb
            obtain ⟨old, hold, hres, hrows⟩ := repo_UpdateVoucher_ok g db _ _ res hup
            simp only [hid] at hold
            rw [hfind] at hold
            injection hold with hold
            subst hold
            have hresid : res.ID = id := by rw [hres]; exact hid
            rw [hid] at hrows
            refine ⟨existing, res, hfind, ?_, hr.symm, ?_, hid, ?_, ?_, ?_, ?_, hrows⟩
            · rw [hrows]
              exact find?_map_replace db.rows id existing res hresid hfind
            · rw [hres]
            · rw [hres]
            · rw [hres]
            · rw [hres]
            · rw [hres]

theorem UpdateVoucher_frame_witness :
    ∃ old new, twoRows.rows.find? (fun v => decide (v.ID = "id-1")) = some old
      ∧ ({ rows := [⟨"id-0", "SAVE10", 10, Time.date 2030 1 1, sampleNow 0, sampleNow 0⟩,
                    ⟨"id-1", "SPRING", 15, Time.date 2032 3 1, sampleNow 7, sampleGorm.nowFunc 2⟩],
           writes := 3 } : DB).rows.find? (fun v => decide (v.ID = "id-1")) = some new
      ∧ (⟨"id-1", "SPRING", 15, Time.date 2032 3 1, some (sampleNow 7),
            some (sampleGorm.nowFunc 2)⟩ : VoucherResponse) = toResponse new
      ∧ new.ID = old.ID ∧ old.ID = "id-1" ∧ new.CreatedAt = old.CreatedAt
      ∧ new.Code = "SPRING" ∧ new.DiscountPercent = 15
      ∧ new.ExpiryDate = Time.date 2032 3 1
      ∧ ({ rows := [⟨"id-0", "SAVE10", 10, Time.date 2030 1 1, sampleNow 0, sampleNow 0⟩,
                    ⟨"id-1", "SPRING", 15, Time.date 2032 3 1, sampleNow 7, sampleGorm.nowFunc 2⟩],
           writes := 3 } : DB).rows
          = twoRows.rows.map (fun v => if v.ID = "id-1" then new else v) :=
  UpdateVoucher_frame sampleGorm (fun _ => "validation failed") (fun _ _ => false) sampleNow
    twoRows _ "id-1" ⟨"SPRING", 15, Time.date 2032 3 1⟩ _ rfl

/-! ### Import: per-row checks and report -/

theorem importRows_report {σ ε : Type} (svc : VoucherServiceImpl σ ε) (now : Nat → Time)
    (rows : List (List String)) :
    ∀ (i : Int) (tick : Nat) (s : σ) (sc fc : Int) (fr : List CSVFailedRow),
      (importRows svc now rows i tick s sc fc fr).1
        = { SuccessCount := sc + ((specOutcomes svc now s tick rows).count none : Nat),
            FailedCount := fc + (((specOutcomes svc now s tick rows).filter Option.isSome).length : Nat),
            FailedRows := fr ++ failuresFrom (i + 2) (specOutcomes svc now s tick rows) } := by
  induction rows with
  | nil =>
    intro i tick s sc fc fr
    simp [importRows, specOutcomes, failuresFrom]
  | cons record rest ih =>
    intro i tick s sc fc fr
    have hidx : i + 1 + 2 = i + 2 + 1 := by ring
    by_cases hlen : record.length < 3
    · simp only [importRows, specOutcomes, specRowCheck, hlen, if_true, ih, hidx]
      simp [failuresFrom, add_assoc, add_comm]
    · cases hat : Atoi (record.getD 1 "") with
      | none =>
        simp only [importRows, specOutcomes, specRowCheck, hlen, if_false, hat, if_true, ih, hidx]
        simp [failuresFrom, add_assoc, add_comm]
      | some discount =>
        by_cases hrange : discount < 1 ∨ discount > 100
        · have hdec : decide (1 ≤ discount ∧ discount ≤ 100) = false := by
            simp only [decide_eq_false_iff_not]; omega
          simp only [importRows, specOutcomes, specRowCheck, hlen, if_false, hat, hrange, hdec,
            if_true, ih, hidx]
          simp [failuresFrom, add_assoc, add_comm]
        · have hdec : decide (1 ≤ discount ∧ discount ≤ 100) = true := by
            simp only [decide_eq_true_eq]; omega
          cases hp : Parse (record.getD 2 "") with
          | none =>
            simp only [importRows, specOutcomes, specRowCheck, hlen, if_false, hat, hrange, hdec,
              hp, Bool.true_eq_false, if_true, ih, hidx]
            simp [failuresFrom, add_assoc, add_comm]
          | some expiry =>
            have hv : specRowVoucher now tick record
                = { ID := "", Code := record.getD 0 "", DiscountPercent := discount,
                    ExpiryDate := expiry, CreatedAt := now tick, UpdatedAt := now (tick + 1) } := by
              simp only [specRowVoucher, hat, hp, Option.getD_some]
            simp only [importRows, specOutcomes, specRowCheck, hlen, if_false, hat, hrange, hdec,
              hp, Bool.true_eq_false, hv]
            cases hc : svc.VoucherRepository.CreateVoucher s
                { ID := "", Code := record.getD 0 "", DiscountPercent := discount,
                  ExpiryDate := expiry, CreatedAt := now tick, UpdatedAt := now (tick + 1) } with
            | mk out s' =>
              cases out with
              | error e =>
                simp only [ih, hidx]
                simp [failuresFrom, add_assoc, add_comm]
              | ok v =>
                simp only [ih, hidx]
                simp [failuresFrom, add_assoc, add_comm]

theorem mem_failuresFrom (outcomes : List (Option String)) :
    ∀ (k : Int) (row : CSVFailedRow),
      row ∈ failuresFrom k outcomes
        ↔ ∃ j : Nat, outcomes.get? j = some (some row.Reason) ∧ row.Row = k + j := by
  induction outcomes with
  | nil => intro k row; simp [failuresFrom]
  | cons o outcomes ih =>
    intro k row
    cases o with
    | none =>
      simp only [failuresFrom, ih]
      constructor
      · rintro ⟨j, h1, h2⟩
        exact ⟨j + 1, by simpa using h1, by rw [h2]; push_cast; ring⟩
      · rintro ⟨j, h1, h2⟩
        cases j with
        | zero => simp at h1
        | succ j => exact ⟨j, by simpa using h1, by rw [h2]; push_cast; ring⟩
    | some reason =>
      simp only [failuresFrom, List.mem_cons, ih]
      constructor
      · rintro (h | ⟨j, h1, h2⟩)
        · exact ⟨0, by simp [h], by simp [h]⟩
        · exact ⟨j + 1, by simpa using h1, by rw [h2]; push_cast; ring⟩
      · rintro ⟨j, h1, h2⟩
        cases j with
        | zero =>
          left
          simp only [List.get?_cons_zero, Option.some.injEq] at h1
          cases row
          simp_all
        | succ j => exact Or.inr ⟨j, by simpa using h1, by rw [h2]; push_cast; ring⟩

theorem specOutcomes_get? {σ ε : Type} (svc : VoucherServiceImpl σ ε) (now : Nat → Time)
    (rows : List (List String)) :
    ∀ (s : σ) (tick : Nat) (j : Nat) (record : List String), rows.get? j = some record →
      (∀ reason, specRowCheck record = some reason →
          (specOutcomes svc now s tick rows).get? j = some (some reason))
        ∧ (specRowCheck record = none →
            (specOutcomes svc now s tick rows).get? j = some none
              ∨ (specOutcomes svc now s tick rows).get? j
                  = some (some "Database error or duplicate code")) := by
  induction rows with
  | nil => intro s tick j record h; simp at h
  | cons r rest ih =>
    intro s tick j record h
    cases j with
    | zero =>
      simp only [List.get?_cons_zero, Option.some.injEq] at h
      subst h
      constructor
      · intro reason hr
        simp [specOutcomes, hr]
      · intro hr
        simp only [specOutcomes, hr]
        cases svc.VoucherRepository.CreateVoucher s (specRowVoucher now tick r) with
        | mk out s' => cases out <;> simp
    | succ j =>
      simp only [List.get?_cons_succ] at h
      cases hr : specRowCheck r with
      | some reason =>
        simp only [specOutcomes, hr, List.get?_cons_succ]
        exact ih s tick j record h
      | none =>
        simp only [specOutcomes, hr]
        cases svc.VoucherRepository.CreateVoucher s (specRowVoucher now tick r) with
        | mk out s' =>
          cases out <;> simp only [List.get?_cons_succ] <;> exact ih s' (tick + 2) j record h

/-- C5: for a parsed CSV of a header row followed by data rows, the import
returns a report (it does not fault); a row is listed in `FailedRows` exactly
when its outcome in the specified batch run is a failure, with row number
`j + 2` for the data row at index `j` and in source order (`failuresFrom 2`);
the outcome of a row that fails one of the three checks is the reason of the
first failing check (`specRowCheck`: fewer than 3 columns, then the percent,
then the date), the outcome of a row that passes them is a success or, when the
store refuses the create, `"Database error or duplicate code"`; and the two
counters count the successes and the failures. -/
theorem ImportFromCSV_row_checks {σ ε : Type} (svc : VoucherServiceImpl σ ε)
    (now : Nat → Time) (s : σ) (header : List String) (rows : List (List String)) :
    ∃ report s', importRecords svc now s (header :: rows) = some (report, s')
      ∧ report.FailedRows = failuresFrom 2 (specOutcomes svc now s 0 rows)
      ∧ report.SuccessCount = ((specOutcomes svc now s 0 rows).count none : Nat)
      ∧ report.FailedCount
          = (((specOutcomes svc now s 0 rows).filter Option.isSome).length : Nat)
      ∧ (∀ row, row ∈ report.FailedRows
          ↔ ∃ j : Nat, (specOutcomes svc now s 0 rows).get? j = some (some row.Reason)
              ∧ row.Row = 2 + j)
      ∧ (∀ (j : Nat) (record : List String), rows.get? j = some record →
          (∀ reason, specRowCheck record = some reason →
              (specOutcomes svc now s 0 rows).get? j = some (some reason))
            ∧ (specRowCheck record = none →
                (specOutcomes svc now s 0 rows).get? j = some none
                  ∨ (specOutcomes svc now s 0 rows).get? j
                      = some (some "Database error or duplicate code"))) := by
  have h := importRows_report svc now rows 0 0 s 0 0 []
  refine ⟨(importRows svc now rows 0 0 s 0 0 []).1, (importRows svc now rows 0 0 s 0 0 []).2,
    rfl, ?_, ?_, ?_, ?_, specOutcomes_get? svc now rows s 0⟩
  · rw [h]; simp
  · rw [h]; simp
  · rw [h]; simp
  · intro row
    rw [h]
    simp only [List.nil_append, zero_add]
    exact mem_failuresFrom _ 2 row

theorem ImportFromCSV_row_checks_witness :
    ∃ report s', importRecords tableService sampleNow emptyDB
          [["voucher_code", "discount_percent", "expiry_date"], ["A", "0", "2030-01-01"],
           ["B", "50", "01/01/2030"], ["C", "50", "2030-01-01"]] = some (report, s')
      ∧ report = { SuccessCount := 1, FailedCount := 2,
                   FailedRows := [⟨2, "Invalid discount percent"⟩,
                                  ⟨3, "Invalid expiry date format"⟩] } := by
  obtain ⟨report, s', h1, h2, h3, h4, _⟩ :=
    ImportFromCSV_row_checks tableService sampleNow emptyDB
      ["voucher_code", "discount_percent", "expiry_date"]
      [["A", "0", "2030-01-01"], ["B", "50", "01/01/2030"], ["C", "50", "2030-01-01"]]
  refine ⟨report, s', h1, ?_⟩
  have e : specOutcomes tableService sampleNow emptyDB 0
      [["A", "0", "2030-01-01"], ["B", "50", "01/01/2030"], ["C", "50", "2030-01-01"]]
      = [some "Invalid discount percent", some "Invalid expiry date format", none] := rfl
  rw [e] at h2 h3 h4
  cases report
  simp only at h2 h3 h4
  subst h2 h3 h4
  rfl

/-! ### Export -/

theorem foldl_Write (vouchers : List Voucher) :
    ∀ buffer : List Char,
      vouchers.foldl (fun buffer v => Writer.Write buffer (exportRecord v)) buffer
        = buffer ++ csvText (vouchers.map exportRecord) := by
  induction vouchers with
  | nil => intro buffer; simp [csvText]
  | cons v vs ih =>
    intro buffer
    rw [List.foldl_cons, ih]
    simp only [Writer.Write, csvText, List.map_cons, List.flatten_cons, List.append_assoc]

theorem ExportToCSV_csvText {σ ε : Type} (svc : VoucherServiceImpl σ ε) (s : σ)
    (vouchers : List Voucher)
    (hfind : svc.VoucherRepository.FindAll s "" "asc" = .ok vouchers) :
    ExportToCSV svc s = .ok (csvText (exportHeader :: vouchers.map exportRecord)) := by
  simp only [ExportToCSV, hfind, foldl_Write]
  simp [csvText, Writer.Write, exportHeader]

/-- C10: when the store's `FindAll("", "asc")` returns `n` vouchers, `ExportToCSV`
succeeds and its output is the CSV text of `n + 1` records: the header
`voucher_code, discount_percent, expiry_date` and then, for the voucher at
position `j` of the store's list, at position `j` the record of its code, the
decimal form of its percentage and its expiry date in the layout `2006-01-02`. -/
theorem ExportToCSV_records {σ ε : Type} (svc : VoucherServiceImpl σ ε) (s : σ)
    (vouchers : List Voucher)
    (hfind : svc.VoucherRepository.FindAll s "" "asc" = .ok vouchers) :
    ExportToCSV svc s = .ok (csvText (exportHeader :: vouchers.map exportRecord))
      ∧ (exportHeader :: vouchers.map exportRecord).length = vouchers.length + 1
      ∧ (∀ (j : Nat) (v : Voucher), vouchers.get? j = some v →
          (vouchers.map exportRecord).get? j
            = some [v.Code, Itoa v.DiscountPercent, v.ExpiryDate.Format]) := by
  refine ⟨ExportToCSV_csvText svc s vouchers hfind, by simp, ?_⟩
  · intro j v hj
    simp only [List.get?_eq_getElem?, List.getElem?_map] at hj ⊢
    rw [hj]
    rfl

theorem ExportToCSV_records_witness :
    ExportToCSV tableService twoRows
        = .ok "voucher_code,discount_percent,expiry_date\nSAVE10,10,2030-01-01\nWELCOME,5,2031-01-01\n".toList
      ∧ (exportHeader :: twoRows.rows.map exportRecord)
          = [["voucher_code", "discount_percent", "expiry_date"], ["SAVE10", "10", "2030-01-01"],
             ["WELCOME", "5", "2031-01-01"]] := by
  have h := (ExportToCSV_records tableService twoRows twoRows.rows rfl).1
  constructor
  · rw [h]; rfl
  · rfl

/-! ### The reader returns on every input -/

theorem readLineAux_length (input : List Char) :
    (readLineAux input).1.length + (readLineAux input).2.length ≤ input.length := by
  induction input using readLineAux.induct with
  | case1 => simp [readLineAux]
  | case2 => simp [readLineAux]
  | case3 rest => simp [readLineAux]; omega
  | case4 rest => simp [readLineAux]; omega
  | case5 c rest h1 h2 h3 ih =>
    rw [readLineAux]
    · simp only [List.length_cons]; omega
    · exact h1
    · exact h2
    · exact h3

theorem readLineAux_rest_lt (input : List Char) (h : input ≠ []) :
    (readLineAux input).2.length < input.length := by
  have := readLineAux_length input
  induction input using readLineAux.induct with
  | case1 => exact absurd rfl h
  | case2 => simp [readLineAux]
  | case3 rest => simp [readLineAux]; omega
  | case4 rest => simp [readLineAux]
  | case5 c rest h1 h2 h3 ih =>
    have hl := readLineAux_length rest
    rw [readLineAux]
    · simp only [List.length_cons]; omega
    · exact h1
    · exact h2
    · exact h3

theorem dropWhile_length_le (p : Char → Bool) (l : List Char) :
    (l.dropWhile p).length ≤ l.length := by
  induction l with
  | nil => simp
  | cons c l ih =>
    rw [List.dropWhile_cons]
    split
    · simp only [List.length_cons]; omega
    · exact le_refl _

theorem readQuoted_total (fuel : Nat) :
    ∀ (line rest buf : List Char), line.length + rest.length + 1 ≤ fuel →
      ∃ q, readQuoted fuel line rest buf = some q
        ∧ q.within (line.length + rest.length) rest.length := by
  induction fuel with
  | zero => intro line rest buf h; omega
  | succ fuel ih =>
    intro line rest buf hfuel
    rw [readQuoted]
    have hdl := dropWhile_length_le (fun c => decide (c ≠ '"')) line
    cases hd : line.dropWhile (fun c => decide (c ≠ '"')) with
    | nil =>
      simp only []
      by_cases hline : line = []
      · subst hline
        exact ⟨.error .ErrQuote, by simp, trivial⟩
      · have hpos : 0 < line.length := List.length_pos.mpr hline
        simp only [hline, ne_eq, not_false_eq_true, if_true]
        cases hr : readLine rest with
        | none =>
          simp only []
          obtain ⟨f, rfl⟩ : ∃ f, fuel = f + 1 := ⟨fuel - 1, by omega⟩
          exact ⟨.error .ErrQuote, by simp [readQuoted], trivial⟩
        | some lr =>
          obtain ⟨l2, r2⟩ := lr
          simp only []
          have hrest : rest ≠ [] := by
            intro h; simp [readLine, h] at hr
          have hlr : (l2, r2) = readLineAux rest := by
            simp only [readLine, hrest, if_false, Option.some.injEq] at hr
            exact hr.symm
          have h1 := readLineAux_length rest
          rw [← hlr] at h1
          simp only at h1
          obtain ⟨q, hq, hw⟩ := ih l2 r2 (buf ++ line) (by omega)
          refine ⟨q, hq, ?_⟩
          cases q with
          | comma f l r => simp only [Quoted.within] at hw ⊢; omega
          | endOfLine f r => simp only [Quoted.within] at hw ⊢; omega
          | error e => trivial
    | cons q after =>
      rw [hd] at hdl
      simp only [List.length_cons] at hdl
      simp only []
      split
      · rename_i after'
        simp only [List.length_cons] at hdl
        obtain ⟨q, hq, hw⟩ := ih after' rest
          (buf ++ List.takeWhile (fun c => decide (c ≠ '"')) line ++ ['"']) (by omega)
        refine ⟨q, hq, ?_⟩
        cases q with
        | comma f l r => simp only [Quoted.within] at hw ⊢; omega
        | endOfLine f r => simp only [Quoted.within] at hw ⊢; omega
        | error e => trivial
      · rename_i after'
        simp only [List.length_cons] at hdl
        exact ⟨_, rfl, by simp only [Quoted.within]; omega⟩
      · split
        · exact ⟨_, rfl, by simp [Quoted.within]⟩
        · exact ⟨_, rfl, trivial⟩

theorem parseFields_total (fuel : Nat) :
    ∀ (line rest : List Char) (fields : List String), line.length + rest.length + 1 ≤ fuel →
      ∃ r, parseFields fuel line rest fields = some r
        ∧ ∀ record rest', r = .ok (record, rest') → rest'.length ≤ rest.length := by
  induction fuel with
  | zero => intro line rest fields h; omega
  | succ fuel ih =>
    intro line rest fields hfuel
    rw [parseFields]
    have hdl := dropWhile_length_le IsSpace line
    split
    · rename_i line' heq
      rw [heq] at hdl
      simp only [List.length_cons] at hdl
      obtain ⟨q, hq, hw⟩ := readQuoted_total fuel line' rest [] (by omega)
      rw [hq]
      cases q with
      | comma f l r =>
        simp only [Quoted.within] at hw
        simp only []
        obtain ⟨res, hres, hb⟩ := ih l r (fields ++ [String.mk f]) (by omega)
        refine ⟨res, hres, ?_⟩
        intro record rest' h
        have := hb record rest' h
        omega
      | endOfLine f r =>
        simp only [Quoted.within] at hw
        refine ⟨_, rfl, ?_⟩
        intro record rest' h
        simp only [Except.ok.injEq, Prod.mk.injEq] at h
        rw [← h.2]; exact hw
      | error e =>
        refine ⟨_, rfl, ?_⟩
        intro record rest' h
        simp at h
    · rename_i trimmed hne
      have hd2 := dropWhile_length_le (fun c => decide (c ≠ ',')) (List.dropWhile IsSpace line)
      split
      · rename_i q after heq
        rw [heq] at hd2
        simp only [List.length_cons] at hd2
        simp only []
        split
        · refine ⟨_, rfl, ?_⟩
          intro record rest' h
          simp at h
        · exact ih after rest _ (by omega)
      · simp only []
        split
        · refine ⟨_, rfl, ?_⟩
          intro record rest' h
          simp at h
        · refine ⟨_, rfl, ?_⟩
          intro record rest' h
          simp only [Except.ok.injEq, Prod.mk.injEq] at h
          rw [← h.2]

theorem skipEmptyLines_total (fuel : Nat) :
    ∀ (input : List Char), input.length + 1 ≤ fuel →
      ∃ r, skipEmptyLines fuel input = some r
        ∧ ∀ line rest, r = some (line, rest) →
            line.length + rest.length ≤ input.length ∧ rest.length < input.length := by
  induction fuel with
  | zero => intro input h; omega
  | succ fuel ih =>
    intro input hfuel
    rw [skipEmptyLines]
    by_cases hin : input = []
    · subst hin
      refine ⟨none, by simp [readLine], ?_⟩
      intro line rest h
      simp at h
    · have h1 := readLineAux_length input
      have h2 := readLineAux_rest_lt input hin
      simp only [readLine, hin, if_false]
      split
      · obtain ⟨r, hr, hb⟩ := ih (readLineAux input).2 (by omega)
        refine ⟨r, hr, ?_⟩
        intro line rest h
        have := hb line rest h
        omega
      · refine ⟨_, rfl, ?_⟩
        intro line rest h
        simp only [Option.some.injEq, Prod.mk.injEq] at h
        rw [← h.1, ← h.2]
        exact ⟨h1, h2⟩

theorem readAllLoop_total (fuel : Nat) :
    ∀ (input : List Char) (k : Nat) (records : List (List String)), input.length + 2 ≤ fuel →
      ∃ r, readAllLoop fuel input k records = some r := by
  induction fuel with
  | zero => intro input k records h; omega
  | succ fuel ih =>
    intro input k records hfuel
    rw [readAllLoop]
    obtain ⟨r, hr, hb⟩ := skipEmptyLines_total fuel input (by omega)
    rw [hr]
    cases r with
    | none => exact ⟨_, rfl⟩
    | some lr =>
      obtain ⟨line, rest⟩ := lr
      have hlr := hb line rest rfl
      simp only []
      obtain ⟨p, hp, hpb⟩ := parseFields_total fuel line rest [] (by omega)
      rw [hp]
      cases p with
      | error e => exact ⟨_, rfl⟩
      | ok rr =>
        obtain ⟨record, rest'⟩ := rr
        have := hpb record rest' rfl
        simp only []
        split
        · exact ⟨_, rfl⟩
        · exact ih rest' _ _ (by omega)

/-- `ReadAll` never runs out of fuel: on every input it returns the records or a
parse error. -/
theorem ReadAll_total (input : List Char) : ∃ r, ReadAll input = some r :=
  readAllLoop_total _ input 0 [] (le_refl _)

/-! ### Reading back what the writer wrote -/

theorem noCRLF_tail (x : Char) (rest : List Char) (h : noCRLF (x :: rest) = true) :
    noCRLF rest = true := by
  rw [noCRLF.eq_def] at h
  split at h
  · simp at h
  · rename_i heq
    simp only [List.cons.injEq] at heq
    rw [heq.2]; exact h
  · rename_i heq; simp at heq

theorem noCRLF_head (rest : List Char) (h : noCRLF ('\r' :: rest) = true) :
    rest.head? ≠ some '\n' := by
  cases rest with
  | nil => simp
  | cons y ys =>
    intro hy
    simp only [List.head?_cons, Option.some.injEq] at hy
    subst hy
    simp [noCRLF] at h

theorem readLineAux_lf (rest : List Char) : readLineAux ('\n' :: rest) = (['\n'], rest) := by
  simp [readLineAux]

theorem readLineAux_cons (c : Char) (rest : List Char) (h1 : c ≠ '\n') (h2 : c ≠ '\r') :
    readLineAux (c :: rest) = (c :: (readLineAux rest).1, (readLineAux rest).2) := by
  rw [readLineAux] <;> simp_all

theorem readLineAux_cr (c : Char) (rest : List Char) (h1 : c ≠ '\n') :
    readLineAux ('\r' :: c :: rest)
      = ('\r' :: (readLineAux (c :: rest)).1, (readLineAux (c :: rest)).2) := by
  rw [readLineAux] <;> simp_all

theorem readLineAux_line (l more : List Char) (h : ∀ c ∈ l, c ≠ '\n' ∧ c ≠ '\r') :
    readLineAux (l ++ '\n' :: more) = (l ++ ['\n'], more) := by
  induction l with
  | nil => simp [readLineAux_lf]
  | cons c l ih =>
    have hc := h c (by simp)
    rw [List.cons_append, readLineAux_cons c _ hc.1 hc.2, ih (fun x hx => h x (by simp [hx]))]
    simp

theorem takeWhile_append_stop (p : Char → Bool) (l r : List Char) (q : Char)
    (h : ∀ c ∈ l, p c = true) (hq : p q = false) : (l ++ q :: r).takeWhile p = l := by
  induction l with
  | nil => simp [List.takeWhile, hq]
  | cons c l ih =>
    have hc := h c (by simp)
    simp only [List.cons_append, List.takeWhile_cons, hc, if_true]
    rw [ih (fun x hx => h x (by simp [hx]))]

theorem dropWhile_append_stop (p : Char → Bool) (l r : List Char) (q : Char)
    (h : ∀ c ∈ l, p c = true) (hq : p q = false) : (l ++ q :: r).dropWhile p = q :: r := by
  induction l with
  | nil => simp [List.dropWhile, hq]
  | cons c l ih =>
    have hc := h c (by simp)
    simp only [List.cons_append, List.dropWhile_cons, hc, if_true]
    rw [ih (fun x hx => h x (by simp [hx]))]

theorem dropWhile_all (p : Char → Bool) (l : List Char) (h : ∀ c ∈ l, p c = true) :
    l.dropWhile p = [] := by
  induction l with
  | nil => simp
  | cons c l ih =>
    have hc := h c (by simp)
    simp only [List.dropWhile_cons, hc, if_true]
    exact ih (fun x hx => h x (by simp [hx]))

/-! steps of readQuoted -/

theorem readQuoted_dquote (fuel : Nat) (line rest buf : List Char) :
    readQuoted (fuel + 1) ('"' :: '"' :: line) rest buf = readQuoted fuel line rest (buf ++ ['"']) := by
  simp [readQuoted, List.dropWhile, List.takeWhile]

theorem readQuoted_close (fuel : Nat) (line rest buf : List Char) :
    readQuoted (fuel + 1) ('"' :: ',' :: line) rest buf = some (.comma buf line rest) := by
  simp [readQuoted, List.dropWhile, List.takeWhile]

theorem readQuoted_lf (fuel : Nat) (c : Char) (rest buf : List Char) :
    readQuoted (fuel + 1) ['\n'] (c :: rest) buf
      = readQuoted fuel (readLineAux (c :: rest)).1 (readLineAux (c :: rest)).2 (buf ++ ['\n']) := by
  simp [readQuoted, List.dropWhile, List.takeWhile, readLine]

theorem readQuoted_plain (fuel : Nat) (x : Char) (line rest buf : List Char) (hx : x ≠ '"')
    (hline : line ≠ []) :
    readQuoted (fuel + 1) (x :: line) rest buf = readQuoted (fuel + 1) line rest (buf ++ [x]) := by
  have hp : decide (x ≠ '"') = true := by simp [hx]
  rw [readQuoted, readQuoted]
  simp only [List.dropWhile_cons, List.takeWhile_cons, hp, if_true]
  cases hd : line.dropWhile (fun c => decide (c ≠ '"')) with
  | nil =>
    simp only [hline, ne_eq, not_false_eq_true, if_true, reduceCtorEq, List.append_assoc,
      List.singleton_append]
  | cons q after =>
    simp only [List.append_assoc, List.singleton_append, List.cons_append, List.nil_append]

theorem quotedText_line_ne_nil (code tl more : List Char) :
    (readLineAux (quotedText code (tl ++ '\n' :: more))).1 ≠ [] := by
  cases code with
  | nil =>
    simp only [quotedText, escapeQuotes, List.nil_append]
    rw [readLineAux_cons _ _ (by decide) (by decide)]
    simp
  | cons x code =>
    simp only [quotedText, escapeQuotes]
    by_cases hq : x = '"'
    · subst hq
      simp only [if_true, List.cons_append]
      rw [readLineAux_cons _ _ (by decide) (by decide)]
      simp
    · simp only [hq, if_false, List.cons_append]
      by_cases hn : x = '\n'
      · subst hn; rw [readLineAux_lf]; simp
      · by_cases hr : x = '\r'
        · subst hr
          cases hrest : escapeQuotes code ++ '"' :: ',' :: (tl ++ '\n' :: more) with
          | nil => simp at hrest
          | cons y ys =>
            by_cases hy : y = '\n'
            · subst hy; simp [readLineAux]
            · rw [readLineAux_cr _ _ hy]; simp
        · rw [readLineAux_cons _ _ hn hr]; simp

theorem readQuoted_code (tl more : List Char) (htl : ∀ c ∈ tl, c ≠ '\n' ∧ c ≠ '\r') :
    ∀ (code : List Char), noCRLF code = true → ∀ (fuel : Nat) (buf : List Char),
      code.length + 1 ≤ fuel →
      readQuoted fuel (readLineAux (quotedText code (tl ++ '\n' :: more))).1
          (readLineAux (quotedText code (tl ++ '\n' :: more))).2 buf
        = some (.comma (buf ++ code) (tl ++ ['\n']) more) := by
  intro code
  induction code with
  | nil =>
    intro _ fuel buf hfuel
    obtain ⟨f, rfl⟩ : ∃ f, fuel = f + 1 := ⟨fuel - 1, by simp at hfuel; omega⟩
    simp only [quotedText, escapeQuotes, List.nil_append]
    rw [readLineAux_cons _ _ (by decide) (by decide), readLineAux_cons _ _ (by decide) (by decide),
      readLineAux_line tl more htl]
    simp only [readQuoted_close, List.append_nil]
  | cons x code ih =>
    intro hno fuel buf hfuel
    obtain ⟨f, rfl⟩ : ∃ f, fuel = f + 1 := ⟨fuel - 1, by simp at hfuel; omega⟩
    have hf : code.length + 1 ≤ f := by simp at hfuel; omega
    have hqt : quotedText (x :: code) (tl ++ '\n' :: more)
        = (if x = '"' then ['"', '"'] else [x]) ++ quotedText code (tl ++ '\n' :: more) := by
      simp only [quotedText, escapeQuotes]
      split <;> simp
    have hne := quotedText_line_ne_nil code tl more
    by_cases hq : x = '"'
    · subst hq
      have hno' : noCRLF code = true := noCRLF_tail _ _ hno
      rw [hqt]
      simp only [if_true, List.cons_append, List.nil_append]
      rw [readLineAux_cons _ _ (by decide) (by decide), readLineAux_cons _ _ (by decide) (by decide)]
      simp only [readQuoted_dquote]
      rw [ih hno' f _ hf]
      simp
    · rw [hqt]
      simp only [hq, if_false, List.cons_append, List.nil_append]
      by_cases hn : x = '\n'
      · subst hn
        have hno' : noCRLF code = true := noCRLF_tail _ _ hno
        rw [readLineAux_lf]
        cases hT : quotedText code (tl ++ '\n' :: more) with
        | nil => simp [quotedText] at hT
        | cons y ys =>
          simp only []
          rw [readQuoted_lf, ← hT, ih hno' f _ hf]
          simp
      · have hno' : noCRLF code = true := noCRLF_tail _ _ hno
        by_cases hr : x = '\r'
        · subst hr
          have hhead : ∃ z zs, quotedText code (tl ++ '\n' :: more) = z :: zs ∧ z ≠ '\n' := by
            have h1 := noCRLF_head code hno
            cases code with
            | nil => exact ⟨'"', ',' :: (tl ++ '\n' :: more), by simp [quotedText, escapeQuotes], by decide⟩
            | cons y ys =>
              have hy : y ≠ '\n' := by simpa using h1
              by_cases hyq : y = '"'
              · exact ⟨'"', '"' :: (escapeQuotes ys ++ '"' :: ',' :: (tl ++ '\n' :: more)),
                  by simp [quotedText, escapeQuotes, hyq], by decide⟩
              · exact ⟨y, escapeQuotes ys ++ '"' :: ',' :: (tl ++ '\n' :: more),
                  by simp [quotedText, escapeQuotes, hyq], hy⟩
          obtain ⟨z, zs, hz, hzn⟩ := hhead
          rw [hz, readLineAux_cr _ _ hzn, ← hz]
          rw [readQuoted_plain _ _ _ _ _ (by decide) hne]
          rw [ih hno' (f + 1) _ (by omega)]
          simp
        · rw [readLineAux_cons _ _ hn hr]
          rw [readQuoted_plain _ _ _ _ _ hq hne]
          rw [ih hno' (f + 1) _ (by omega)]
          simp

/-! plain fields -/

theorem plain_chars (f : List Char) (h : fieldNeedsQuotes f = false) :
    ∀ c ∈ f, c ≠ '\n' ∧ c ≠ '\r' ∧ c ≠ '"' ∧ c ≠ ',' := by
  cases f with
  | nil => simp
  | cons r1 f =>
    intro c hc
    simp only [fieldNeedsQuotes, Bool.or_eq_false_iff, List.any_eq_false] at h
    have := h.1.2 c hc
    simpa [and_assoc] using this

theorem plain_head (r1 : Char) (f : List Char) (h : fieldNeedsQuotes (r1 :: f) = false) :
    IsSpace r1 = false := by
  simp only [fieldNeedsQuotes, Bool.or_eq_false_iff] at h
  exact h.2

theorem lenNewline_le (b : List Char) : lenNewline b ≤ 1 := by
  unfold lenNewline; split <;> simp

theorem lenNewline_append_lf (f : List Char) : lenNewline (f ++ ['\n']) = 1 := by
  simp [lenNewline]

theorem dropWhile_IsSpace_plain (f line : List Char) (c : Char) (hc : IsSpace c = false)
    (h : fieldNeedsQuotes f = false) :
    (f ++ c :: line).dropWhile IsSpace = f ++ c :: line := by
  cases f with
  | nil => simp [List.dropWhile, hc]
  | cons r1 f => simp [List.dropWhile, plain_head r1 f h]

theorem parseFields_mid (fuel : Nat) (f line rest : List Char) (fields : List String)
    (h : fieldNeedsQuotes f = false) :
    parseFields (fuel + 1) (f ++ ',' :: line) rest fields
      = parseFields fuel line rest (fields ++ [String.mk f]) := by
  have hchars := plain_chars f h
  rw [parseFields, dropWhile_IsSpace_plain f line ',' (by decide) h]
  have hd : (f ++ ',' :: line).dropWhile (fun c => decide (c ≠ ',')) = ',' :: line :=
    dropWhile_append_stop _ f line ',' (fun c hc => by simp [(hchars c hc).2.2.2]) (by simp)
  have ht : (f ++ ',' :: line).takeWhile (fun c => decide (c ≠ ',')) = f :=
    takeWhile_append_stop _ f line ',' (fun c hc => by simp [(hchars c hc).2.2.2]) (by simp)
  have hq : f.contains '"' = false := by
    rw [Bool.eq_false_iff]
    intro hcon
    rw [List.contains_iff_exists_mem_beq] at hcon
    obtain ⟨c, hc, hb⟩ := hcon
    have := (hchars c hc).2.2.1
    simp at hb
    exact this hb.symm
  split
  · rename_i line' heq
    exfalso
    cases f with
    | nil => simp at heq
    | cons r1 f =>
      simp only [List.cons_append, List.cons.injEq] at heq
      exact (hchars r1 (by simp)).2.2.1 heq.1
  · simp only [hd, ht, hq, Bool.false_eq_true, if_false]

theorem parseFields_last (fuel : Nat) (f rest : List Char) (fields : List String)
    (h : fieldNeedsQuotes f = false) :
    parseFields (fuel + 1) (f ++ ['\n']) rest fields
      = some (.ok (fields ++ [String.mk f], rest)) := by
  have hchars := plain_chars f h
  have hq : f.contains '"' = false := by
    rw [Bool.eq_false_iff]
    intro hcon
    rw [List.contains_iff_exists_mem_beq] at hcon
    obtain ⟨c, hc, hb⟩ := hcon
    have := (hchars c hc).2.2.1
    simp at hb
    exact this hb.symm
  cases f with
  | nil =>
    simp [parseFields, List.dropWhile, IsSpace, lenNewline]
  | cons r1 f =>
    rw [parseFields]
    have hdw : (r1 :: f ++ ['\n']).dropWhile IsSpace = r1 :: f ++ ['\n'] := by
      simp [List.dropWhile, plain_head r1 f h]
    rw [hdw]
    have hd : (r1 :: f ++ ['\n']).dropWhile (fun c => decide (c ≠ ',')) = [] :=
      dropWhile_all _ _ (fun c hc => by
        simp only [List.cons_append, List.mem_cons, List.mem_append, List.mem_singleton,
          List.not_mem_nil, or_false] at hc
        rcases hc with hc | hc | hc
        · subst hc; simp [(hchars c (by simp)).2.2.2]
        · simp [(hchars c (by simp [hc])).2.2.2]
        · subst hc; decide)
    have ht : (r1 :: f ++ ['\n']).take ((r1 :: f ++ ['\n']).length - lenNewline (r1 :: f ++ ['\n']))
        = r1 :: f := by
      rw [lenNewline_append_lf]
      simp
    split
    · rename_i line' heq
      exfalso
      simp only [List.cons_append, List.cons.injEq] at heq
      exact (hchars r1 (by simp)).2.2.1 heq.1
    · simp only [hd, ht, hq, Bool.false_eq_true, if_false]

theorem skipEmptyLines_line (fuel : Nat) (input : List Char) (hin : input ≠ [])
    (hlen : 2 ≤ (readLineAux input).1.length) :
    skipEmptyLines (fuel + 1) input = some (some (readLineAux input)) := by
  have h1 := lenNewline_le (readLineAux input).1
  have hne : (readLineAux input).1.length ≠ lenNewline (readLineAux input).1 := by omega
  simp [skipEmptyLines, readLine, hin, hne]

/-- Reading back one written record of three fields, the first of them free of
a carriage return followed by a line feed and the other two written unquoted. -/
theorem readAllLoop_record (a b c : String) (more : List Char) (recs : List (List String))
    (k fuel : Nat) (hk : k = 0 ∨ k = 3)
    (ha : noCRLF a.toList = true) (hb : fieldNeedsQuotes b.toList = false)
    (hc : fieldNeedsQuotes c.toList = false) (hfuel : a.toList.length + 4 ≤ fuel) :
    readAllLoop (fuel + 1) (writeFields [a, b, c] ++ '\n' :: more) k recs
      = readAllLoop fuel more 3 (recs ++ [[a, b, c]]) := by
  obtain ⟨f, rfl⟩ : ∃ f, fuel = f + 1 := ⟨fuel - 1, by omega⟩
  obtain ⟨f2, rfl⟩ : ∃ f2, f = f2 + 1 := ⟨f - 1, by omega⟩
  obtain ⟨f3, rfl⟩ : ∃ f3, f2 = f3 + 1 := ⟨f2 - 1, by omega⟩
  have hbch := plain_chars _ hb
  have hcch := plain_chars _ hc
  have hfields : ∀ (n : Nat) (r : List String), r.length = 3 →
      (if 0 < k ∧ r.length ≠ k then (some (Except.error CsvError.ErrFieldCount) :
          Option (Except CsvError (List (List String))))
        else readAllLoop n more (if k = 0 then r.length else k) (recs ++ [r]))
        = readAllLoop n more 3 (recs ++ [r]) := by
    intro n r hr
    rcases hk with hk | hk <;> subst hk <;> simp [hr]
  have hwf : writeFields [a, b, c] = writeField a ++ ',' :: (b.toList ++ ',' :: c.toList) := by
    simp only [writeFields, writeField, hb, hc, Bool.false_eq_true, if_false]
  rw [hwf]
  by_cases hq : fieldNeedsQuotes a.toList = true
  · -- quoted first field
    have htl : ∀ x ∈ b.toList ++ ',' :: c.toList, x ≠ '\n' ∧ x ≠ '\r' := by
      intro x hx
      simp only [List.mem_append, List.mem_cons] at hx
      rcases hx with hx | hx | hx
      · exact ⟨(hbch x hx).1, (hbch x hx).2.1⟩
      · subst hx; exact ⟨by decide, by decide⟩
      · exact ⟨(hcch x hx).1, (hcch x hx).2.1⟩
    have htext : writeField a ++ ',' :: (b.toList ++ ',' :: c.toList) ++ '\n' :: more
        = '"' :: quotedText a.toList ((b.toList ++ ',' :: c.toList) ++ '\n' :: more) := by
      simp only [writeField, hq, if_true, quotedText, List.cons_append, List.append_assoc,
        List.nil_append]
    rw [htext]
    clear htext
    have hline := quotedText_line_ne_nil a.toList (b.toList ++ ',' :: c.toList) more
    have hrl : readLineAux ('"' :: quotedText a.toList ((b.toList ++ ',' :: c.toList) ++ '\n' :: more))
        = ('"' :: (readLineAux (quotedText a.toList ((b.toList ++ ',' :: c.toList) ++ '\n' :: more))).1,
            (readLineAux (quotedText a.toList ((b.toList ++ ',' :: c.toList) ++ '\n' :: more))).2) :=
      readLineAux_cons _ _ (by decide) (by decide)
    have hlen : 2 ≤ (readLineAux ('"' :: quotedText a.toList
        ((b.toList ++ ',' :: c.toList) ++ '\n' :: more))).1.length := by
      rw [hrl]
      have := List.length_pos.mpr hline
      simp only [List.length_cons]
      omega
    rw [readAllLoop, skipEmptyLines_line _ _ (by simp) hlen, hrl]
    simp only []
    have hpf : parseFields (f3 + 1 + 1 + 1)
        ('"' :: (readLineAux (quotedText a.toList ((b.toList ++ ',' :: c.toList) ++ '\n' :: more))).1)
        (readLineAux (quotedText a.toList ((b.toList ++ ',' :: c.toList) ++ '\n' :: more))).2 []
        = some (.ok ([a, b, c], more)) := by
      rw [parseFields]
      have hdw : ('"' :: (readLineAux (quotedText a.toList
          ((b.toList ++ ',' :: c.toList) ++ '\n' :: more))).1).dropWhile IsSpace
          = '"' :: (readLineAux (quotedText a.toList
              ((b.toList ++ ',' :: c.toList) ++ '\n' :: more))).1 := by
        rw [List.dropWhile_cons]
        simp [show IsSpace '"' = false by decide]
      rw [hdw]
      simp only []
      rw [readQuoted_code (b.toList ++ ',' :: c.toList) more htl a.toList ha (f3 + 1 + 1) []
        (by omega)]
      simp only [List.nil_append, List.append_assoc, List.cons_append]
      rw [parseFields_mid _ _ _ _ _ hb, parseFields_last _ _ _ _ hc]
      rfl
    rw [hpf]
    simp only []
    exact hfields _ [a, b, c] rfl
  · -- unquoted first field
    have hq' : fieldNeedsQuotes a.toList = false := by simpa using hq
    have hach := plain_chars _ hq'
    have hl : ∀ x ∈ a.toList ++ ',' :: (b.toList ++ ',' :: c.toList), x ≠ '\n' ∧ x ≠ '\r' := by
      intro x hx
      simp only [List.mem_append, List.mem_cons] at hx
      rcases hx with hx | hx | hx | hx | hx
      · exact ⟨(hach x hx).1, (hach x hx).2.1⟩
      · subst hx; exact ⟨by decide, by decide⟩
      · exact ⟨(hbch x hx).1, (hbch x hx).2.1⟩
      · subst hx; exact ⟨by decide, by decide⟩
      · exact ⟨(hcch x hx).1, (hcch x hx).2.1⟩
    have htext : writeField a ++ ',' :: (b.toList ++ ',' :: c.toList) ++ '\n' :: more
        = (a.toList ++ ',' :: (b.toList ++ ',' :: c.toList)) ++ '\n' :: more := by
      simp only [writeField, hq', Bool.false_eq_true, if_false]
    rw [htext]
    have hrl := readLineAux_line (a.toList ++ ',' :: (b.toList ++ ',' :: c.toList)) more hl
    have hlen : 2 ≤ (readLineAux ((a.toList ++ ',' :: (b.toList ++ ',' :: c.toList))
        ++ '\n' :: more)).1.length := by
      rw [hrl]; simp; omega
    rw [readAllLoop, skipEmptyLines_line _ _ (by simp) hlen, hrl]
    simp only []
    have hpf : parseFields (f3 + 1 + 1 + 1)
        ((a.toList ++ ',' :: (b.toList ++ ',' :: c.toList)) ++ ['\n']) more []
        = some (.ok ([a, b, c], more)) := by
      simp only [List.append_assoc, List.cons_append]
      rw [parseFields_mid _ _ _ _ _ hq', parseFields_mid _ _ _ _ _ hb,
        parseFields_last _ _ _ _ hc]
      rfl
    rw [hpf]
    simp only []
    exact hfields _ [a, b, c] rfl

theorem digitChar_facts (k : Nat) (hk : k < 10) :
    isDigit (digitChar k) = true ∧ digitVal (digitChar k) = k
      ∧ digitChar k ≠ '\n' ∧ digitChar k ≠ '\r' ∧ digitChar k ≠ '"' ∧ digitChar k ≠ ','
      ∧ IsSpace (digitChar k) = false ∧ digitChar k ≠ '\\' := by
  interval_cases k <;> decide

set_option maxRecDepth 4000 in
theorem Atoi_Itoa (n : Int) (h1 : 1 ≤ n) (h2 : n ≤ 100) :
    Atoi (Itoa n) = some n ∧ fieldNeedsQuotes (Itoa n).toList = false := by
  interval_cases n <;> exact ⟨by decide, by decide⟩

theorem decimalVal4 (a b c d : Char) :
    decimalVal [a, b, c, d] = digitVal a * 1000 + digitVal b * 100 + digitVal c * 10 + digitVal d := by
  simp [decimalVal]; ring

theorem Parse_Format (t : Time) (hy0 : 0 ≤ t.year) (hy1 : t.year ≤ 9999)
    (hm0 : 1 ≤ t.month) (hm1 : t.month ≤ 12) (hd0 : 1 ≤ t.day)
    (hd1 : t.day ≤ daysIn t.month t.year) :
    Parse t.Format = some ⟨t.year, t.month, t.day, 0, 0⟩
      ∧ fieldNeedsQuotes t.Format.toList = false := by
  obtain ⟨y, hy⟩ : ∃ y : Nat, t.year = y := ⟨t.year.toNat, by omega⟩
  have hylt : y < 10000 := by omega
  have hdlt : t.day < 100 := by
    have : daysIn t.month t.year ≤ 31 := by
      unfold daysIn; split_ifs <;> omega
    omega
  have hmlt : t.month < 100 := by omega
  have hF : t.Format = String.mk
      [digitChar (y / 1000), digitChar (y / 100 % 10), digitChar (y / 10 % 10), digitChar (y % 10),
       '-', digitChar (t.month / 10), digitChar (t.month % 10),
       '-', digitChar (t.day / 10), digitChar (t.day % 10)] := by
    simp only [Time.Format, appendInt, hy]
    have h1 : ¬ ((y : Int) < 0) := by omega
    have h2 : ¬ ((t.month : Int) < 0) := by omega
    have h3 : ¬ ((t.day : Int) < 0) := by omega
    simp [h1, h2, h3, hylt, hdlt, hmlt]
  have f1 := digitChar_facts (y / 1000) (by omega)
  have f2 := digitChar_facts (y / 100 % 10) (by omega)
  have f3 := digitChar_facts (y / 10 % 10) (by omega)
  have f4 := digitChar_facts (y % 10) (by omega)
  have f5 := digitChar_facts (t.month / 10) (by omega)
  have f6 := digitChar_facts (t.month % 10) (by omega)
  have f7 := digitChar_facts (t.day / 10) (by omega)
  have f8 := digitChar_facts (t.day % 10) (by omega)
  constructor
  · rw [hF]
    simp only [Parse, String.toList, f1.1, f2.1, f3.1, f4.1, Bool.and_self, if_true, skipDash,
      getnum, f5.1, f6.1, f7.1, f8.1, decimalVal4, f1.2.1, f2.2.1, f3.2.1, f4.2.1, f5.2.1, f6.2.1,
      f7.2.1, f8.2.1]
    have e1 : y / 1000 * 1000 + y / 100 % 10 * 100 + y / 10 % 10 * 10 + y % 10 = y := by omega
    have e2 : t.month / 10 * 10 + t.month % 10 = t.month := by omega
    have e3 : t.day / 10 * 10 + t.day % 10 = t.day := by omega
    rw [e1, e2, e3, ← hy]
    simp only [ne_eq, List.cons_ne_self, not_false_eq_true, not_true_eq_false, if_false,
      nonpos_iff_eq_zero, Nat.lt_one_iff, ite_not]
    have c1 : ¬ (t.month = 0 ∨ 12 < t.month) := by omega
    have c2 : ¬ (t.day = 0 ∨ daysIn t.month t.year < t.day) := by omega
    simp only [c1, c2, if_false]
  · rw [hF]
    simp only [String.toList, fieldNeedsQuotes, List.any_cons, List.any_nil]
    simp [f1, f2, f3, f4, f5, f6, f7, f8]

theorem escapeQuotes_length (l : List Char) : l.length ≤ (escapeQuotes l).length := by
  induction l with
  | nil => simp [escapeQuotes]
  | cons c l ih =>
    simp only [escapeQuotes]
    split <;> simp <;> omega

theorem writeField_length (a : String) : a.toList.length ≤ (writeField a).length := by
  unfold writeField
  split
  · have := escapeQuotes_length a.toList
    simp only [List.length_cons, List.length_append, List.length_singleton, List.length_nil]
    omega
  · exact le_refl _

theorem readAllLoop_csvText (rs : List (List String)) (hrs : ∀ r ∈ rs, readable r) :
    ∀ (fuel k : Nat) (recs : List (List String)), (k = 0 ∨ k = 3) →
      (csvText rs).length + 2 ≤ fuel →
      readAllLoop fuel (csvText rs) k recs = some (.ok (recs ++ rs)) := by
  induction rs with
  | nil =>
    intro fuel k recs _ hfuel
    obtain ⟨f, rfl⟩ : ∃ f, fuel = f + 1 := ⟨fuel - 1, by omega⟩
    obtain ⟨f2, rfl⟩ : ∃ f2, f = f2 + 1 := ⟨f - 1, by simp [csvText] at hfuel; omega⟩
    simp [csvText, readAllLoop, skipEmptyLines, readLine]
  | cons r rs ih =>
    intro fuel k recs hk hfuel
    obtain ⟨a, b, c, rfl, ha, hb, hc⟩ := hrs r (by simp)
    obtain ⟨f, rfl⟩ : ∃ f, fuel = f + 1 := ⟨fuel - 1, by omega⟩
    have htext : csvText ([a, b, c] :: rs) = writeFields [a, b, c] ++ '\n' :: csvText rs := by
      simp [csvText]
    have hlen : a.toList.length + 3 ≤ (writeFields [a, b, c] ++ '\n' :: csvText rs).length := by
      have := writeField_length a
      simp only [writeFields, List.length_append, List.length_cons]
      omega
    rw [htext] at hfuel ⊢
    rw [readAllLoop_record a b c (csvText rs) recs k f hk ha hb hc (by omega)]
    rw [ih (fun r hr => hrs r (by simp [hr])) f 3 _ (Or.inr rfl)
      (by simp only [List.length_append, List.length_cons] at hfuel; omega)]
    simp

theorem ReadAll_csvText (rs : List (List String)) (hrs : ∀ r ∈ rs, readable r) :
    ReadAll (csvText rs) = some (.ok rs) := by
  unfold ReadAll
  rw [readAllLoop_csvText rs hrs _ 0 [] (Or.inl rfl) (le_refl _)]
  simp

theorem importedRows_length (g : Gorm) (now : Nat → Time) (vs : List Voucher) :
    ∀ writes tick, (importedRows g now vs writes tick).length = vs.length := by
  induction vs with
  | nil => intros; rfl
  | cons v vs ih => intro w t; simp [importedRows, ih]

theorem importedRows_fields (g : Gorm) (now : Nat → Time) (vs : List Voucher) :
    ∀ writes tick,
      (importedRows g now vs writes tick).map
          (fun v => (v.Code, v.DiscountPercent, v.ExpiryDate.year, v.ExpiryDate.month,
            v.ExpiryDate.day))
        = vs.map (fun v => (v.Code, v.DiscountPercent, v.ExpiryDate.year, v.ExpiryDate.month,
            v.ExpiryDate.day)) := by
  induction vs with
  | nil => intros; rfl
  | cons v vs ih => intro w t; simp [importedRows, ih]

theorem importRows_exported (g : Gorm) (hg : Function.Injective g.uuid)
    (gen : VoucherRequest → String) (orbit : Char → Char → Bool) (now : Nat → Time)
    (vs : List Voucher) :
    (∀ v ∈ vs, exportable v) → (vs.map (fun v => v.Code)).Nodup →
    ∀ (db : DB) (i : Int) (tick : Nat) (sc fc : Int) (fr : List CSVFailedRow),
      (∀ v ∈ vs, ∀ w ∈ db.rows, w.Code ≠ v.Code) →
      (∀ w ∈ db.rows, ∃ j, j < db.writes ∧ w.ID = g.uuid j) →
      importRows ⟨NewVoucherRepository g, gen, orbit⟩ now (vs.map exportRecord) i tick db sc fc fr
        = ({ SuccessCount := sc + vs.length, FailedCount := fc, FailedRows := fr },
           { rows := db.rows ++ importedRows g now vs db.writes tick,
             writes := db.writes + vs.length }) := by
  induction vs with
  | nil =>
    intro _ _ db i tick sc fc fr _ _
    simp [importRows, importedRows]
  | cons v vs ih =>
    intro hex hnd db i tick sc fc fr hcodes hids
    obtain ⟨hcolv, _, hp1, hp2, hy0, hy1, hm0, hm1, hd0, hd1⟩ := hex v (by simp)
    have hlen : ¬ (100 < v.Code.length) := by
      intro h
      simp [columnsOK, h] at hcolv
    have hat := (Atoi_Itoa v.DiscountPercent hp1 hp2).1
    have hpf := (Parse_Format v.ExpiryDate hy0 hy1 hm0 hm1 hd0 hd1).1
    have hrange : ¬ (v.DiscountPercent < 1 ∨ v.DiscountPercent > 100) := by omega
    have hcreate : (NewVoucherRepository g).CreateVoucher db
        { ID := "", Code := v.Code, DiscountPercent := v.DiscountPercent,
          ExpiryDate := ⟨v.ExpiryDate.year, v.ExpiryDate.month, v.ExpiryDate.day, 0, 0⟩,
          CreatedAt := now tick, UpdatedAt := now (tick + 1) }
        = (.ok { ID := g.uuid db.writes, Code := v.Code, DiscountPercent := v.DiscountPercent,
                 ExpiryDate := ⟨v.ExpiryDate.year, v.ExpiryDate.month, v.ExpiryDate.day, 0, 0⟩,
                 CreatedAt := now tick, UpdatedAt := now (tick + 1) },
           { rows := db.rows ++
               [{ ID := g.uuid db.writes, Code := v.Code, DiscountPercent := v.DiscountPercent,
                  ExpiryDate := ⟨v.ExpiryDate.year, v.ExpiryDate.month, v.ExpiryDate.day, 0, 0⟩,
                  CreatedAt := now tick, UpdatedAt := now (tick + 1) }],
             writes := db.writes + 1 }) := by
      have hcol : columnsOK
          { ID := g.uuid db.writes, Code := v.Code, DiscountPercent := v.DiscountPercent,
            ExpiryDate := ⟨v.ExpiryDate.year, v.ExpiryDate.month, v.ExpiryDate.day, 0, 0⟩,
            CreatedAt := now tick, UpdatedAt := now (tick + 1) } = .ok () := by
        have h2 : (0 ≤ v.DiscountPercent ∧ v.DiscountPercent ≤ 100) := by omega
        simp [columnsOK, hlen, h2]
      have hid : (db.rows.any (fun w => decide (w.ID = g.uuid db.writes))) = false := by
        rw [List.any_eq_false]
        intro w hw
        obtain ⟨j, hj, hwj⟩ := hids w hw
        simp only [decide_eq_true_eq]
        intro h
        rw [hwj] at h
        have := hg h
        omega
      have hcode : (db.rows.any (fun w => decide (w.Code = v.Code))) = false := by
        rw [List.any_eq_false]
        intro w hw
        simp only [decide_eq_true_eq]
        exact hcodes v (by simp) w hw
      simp only [NewVoucherRepository, VoucherRepositoryImpl.CreateVoucher, if_true, hcol, hid,
        hcode, Bool.false_eq_true, if_false]
    simp only [List.map_cons, exportRecord, importRows, List.length_cons, List.getD_cons_zero,
      List.getD_cons_succ, hat, hpf, hrange, hcreate, if_false]
    have hlt : ¬ (([] : List String).length + 1 + 1 + 1 < 3) := by simp
    rw [if_neg hlt]
    have hnd' : (vs.map (fun v => v.Code)).Nodup := (List.nodup_cons.mp hnd).2
    have hnotin : v.Code ∉ vs.map (fun v => v.Code) := (List.nodup_cons.mp hnd).1
    rw [ih (fun x hx => hex x (by simp [hx])) hnd']
    · simp only [importedRows, List.append_assoc, List.singleton_append, Prod.mk.injEq,
        CSVImportReport.mk.injEq, DB.mk.injEq, and_true, true_and]
      constructor
      · push_cast; ring
      · omega
    · intro x hx w hw
      simp only [List.mem_append, List.mem_singleton] at hw
      rcases hw with hw | hw
      · exact hcodes x (by simp [hx]) w hw
      · subst hw
        simp only
        intro h
        apply hnotin
        rw [h]
        exact List.mem_map_of_mem _ hx
    · intro w hw
      simp only [List.mem_append, List.mem_singleton] at hw
      rcases hw with hw | hw
      · obtain ⟨j, hj, hwj⟩ := hids w hw
        exact ⟨j, by simp; omega, hwj⟩
      · subst hw
        exact ⟨db.writes, by simp, rfl⟩

/-! ### Export followed by import -/

theorem exportRecord_readable (v : Voucher) (h : exportable v) : readable (exportRecord v) := by
  obtain ⟨_, hcr, hp1, hp2, hy0, hy1, hm0, hm1, hd0, hd1⟩ := h
  exact ⟨v.Code, Itoa v.DiscountPercent, v.ExpiryDate.Format, rfl, hcr,
    (Atoi_Itoa v.DiscountPercent hp1 hp2).2,
    (Parse_Format v.ExpiryDate hy0 hy1 hm0 hm1 hd0 hd1).2⟩

theorem exportHeader_readable : readable exportHeader :=
  ⟨"voucher_code", "discount_percent", "expiry_date", rfl, by decide, by decide, by decide⟩

/-- C6 (counterexample): one stored voucher with the code `A\r\nB`, percentage 10
and a valid date is exported and imported into the empty table with
`successCount = 1`, but the code that arrives is `A\nB`: the reader drops the
carriage return before the line feed.  And a voucher whose expiry lies in the
year 10000 is exported as `10000-01-01`, which the import rejects as a date. -/
theorem roundtrip_breaks :
    ExportToCSV tableService
        { rows := [⟨"id-0", "A\r\nB", 10, Time.date 2030 1 1, sampleNow 0, sampleNow 1⟩],
          writes := 1 }
        = .ok "voucher_code,discount_percent,expiry_date\n\"A\r\nB\",10,2030-01-01\n".toList
      ∧ ImportFromCSV tableService sampleNow emptyDB
          (.ok "voucher_code,discount_percent,expiry_date\n\"A\r\nB\",10,2030-01-01\n".toList)
        = some (.ok { SuccessCount := 1, FailedCount := 0, FailedRows := [] },
            { rows := [⟨"id-0", "A\nB", 10, Time.date 2030 1 1, sampleNow 0, sampleNow 1⟩],
              writes := 1 })
      ∧ "A\nB" ≠ "A\r\nB"
      ∧ ExportToCSV tableService
          { rows := [⟨"id-0", "NEWAGE", 10, Time.date 10000 1 1, sampleNow 0, sampleNow 1⟩],
            writes := 1 }
        = .ok "voucher_code,discount_percent,expiry_date\nNEWAGE,10,10000-01-01\n".toList
      ∧ ImportFromCSV tableService sampleNow emptyDB
          (.ok "voucher_code,discount_percent,expiry_date\nNEWAGE,10,10000-01-01\n".toList)
        = some (.ok { SuccessCount := 0, FailedCount := 1,
                      FailedRows := [⟨2, "Invalid expiry date format"⟩] },
            emptyDB) := by
  refine ⟨?_, ?_, by decide, ?_, ?_⟩ <;> rfl

/-- C6 (amended): export followed by import into the empty table round-trips the
stored vouchers (rows satisfying the column constraints of the table) when their
codes are pairwise distinct and hold no carriage return directly followed by a
line feed, their percentages lie in 1..100 and their expiry dates are calendar
dates of a year in 0..9999 (`exportable`): the export succeeds, the import of its bytes returns a report
with `successCount` the number of vouchers, `failedCount = 0` and no failed row,
and the table then holds, in the order of the export, one voucher per original
with the same code, the same percentage and the same year, month and day of
expiry. -/
theorem export_import_roundtrip (g : Gorm) (hg : Function.Injective g.uuid)
    (gen : VoucherRequest → String) (orbit : Char → Char → Bool) (now : Nat → Time)
    (src : DB) (vs : List Voucher)
    (hfind : VoucherRepositoryImpl.FindAll g src "" "asc" = .ok vs)
    (hnd : (vs.map (fun v => v.Code)).Nodup) (hex : ∀ v ∈ vs, exportable v) :
    ∃ bytes dst,
      ExportToCSV ⟨NewVoucherRepository g, gen, orbit⟩ src = .ok bytes
        ∧ ImportFromCSV ⟨NewVoucherRepository g, gen, orbit⟩ now emptyDB (.ok bytes)
            = some (.ok { SuccessCount := vs.length, FailedCount := 0, FailedRows := [] }, dst)
        ∧ dst.rows.map (fun v => (v.Code, v.DiscountPercent, v.ExpiryDate.year,
              v.ExpiryDate.month, v.ExpiryDate.day))
            = vs.map (fun v => (v.Code, v.DiscountPercent, v.ExpiryDate.year,
              v.ExpiryDate.month, v.ExpiryDate.day)) := by
  have hexp := ExportToCSV_csvText ⟨NewVoucherRepository g, gen, orbit⟩ src vs hfind
  have hread : ReadAll (csvText (exportHeader :: vs.map exportRecord))
      = some (.ok (exportHeader :: vs.map exportRecord)) := by
    apply ReadAll_csvText
    intro r hr
    simp only [List.mem_cons, List.mem_map] at hr
    rcases hr with rfl | ⟨v, hv, rfl⟩
    · exact exportHeader_readable
    · exact exportRecord_readable v (hex v hv)
  have himp := importRows_exported g hg gen orbit now vs hex hnd emptyDB 0 0 0 0 []
    (by intro v _ w hw; simp [emptyDB] at hw) (by intro w hw; simp [emptyDB] at hw)
  refine ⟨csvText (exportHeader :: vs.map exportRecord),
    { rows := emptyDB.rows ++ importedRows g now vs emptyDB.writes 0,
      writes := emptyDB.writes + vs.length }, hexp, ?_, ?_⟩
  · simp only [ImportFromCSV, hread, importRecords, himp]
    simp
  · simp only [emptyDB, List.nil_append]
    exact importedRows_fields g now vs 0 0

theorem export_import_roundtrip_witness :
    ∃ bytes dst,
      ExportToCSV ⟨NewVoucherRepository tallyGorm, fun _ => "validation failed", fun _ _ => false⟩
          twoRows = .ok bytes
        ∧ ImportFromCSV
            ⟨NewVoucherRepository tallyGorm, fun _ => "validation failed", fun _ _ => false⟩
            sampleNow emptyDB (.ok bytes)
            = some (.ok { SuccessCount := 2, FailedCount := 0, FailedRows := [] }, dst)
        ∧ dst.rows.map (fun v => (v.Code, v.DiscountPercent, v.ExpiryDate.year,
              v.ExpiryDate.month, v.ExpiryDate.day))
            = [("SAVE10", 10, 2030, 1, 1), ("WELCOME", 5, 2031, 1, 1)] :=
  export_import_roundtrip tallyGorm
    (by
      intro a b h
      have h' : (List.replicate a 'i').length = (List.replicate b 'i').length :=
        congrArg (fun s : String => s.data.length) h
      simpa using h')
    (fun _ => "validation failed") (fun _ _ => false) sampleNow twoRows
    [⟨"id-0", "SAVE10", 10, Time.date 2030 1 1, sampleNow 0, sampleNow 0⟩,
     ⟨"id-1", "WELCOME", 5, Time.date 2031 1 1, sampleNow 7, sampleNow 7⟩]
    rfl (by decide)
    (by
      intro v hv
      simp only [List.mem_cons, List.mem_singleton, List.not_mem_nil, or_false] at hv
      rcases hv with rfl | rfl <;> exact ⟨rfl, by decide⟩)

/-! ### Import: the fault on an empty record list, and the report invariants -/

theorem specOutcomes_length {σ ε : Type} (svc : VoucherServiceImpl σ ε) (now : Nat → Time)
    (rows : List (List String)) :
    ∀ (s : σ) (tick : Nat), (specOutcomes svc now s tick rows).length = rows.length := by
  induction rows with
  | nil => intro s tick; rfl
  | cons r rest ih =>
    intro s tick
    cases hr : specRowCheck r with
    | some reason => simp [specOutcomes, hr, ih]
    | none =>
      simp only [specOutcomes, hr]
      cases svc.VoucherRepository.CreateVoucher s (specRowVoucher now tick r) with
      | mk out s' => cases out <;> simp [ih]

theorem count_none_add_failures (outcomes : List (Option String)) :
    outcomes.count none + (outcomes.filter Option.isSome).length = outcomes.length := by
  induction outcomes with
  | nil => rfl
  | cons o os ih =>
    cases o with
    | none => simp [List.count_cons]; omega
    | some r => simp [List.count_cons]; omega

theorem failuresFrom_length (outcomes : List (Option String)) :
    ∀ k : Int, (failuresFrom k outcomes).length = (outcomes.filter Option.isSome).length := by
  induction outcomes with
  | nil => intro k; rfl
  | cons o os ih =>
    intro k
    cases o with
    | none => simp [failuresFrom, ih]
    | some r => simp [failuresFrom, ih]

theorem failuresFrom_bounds (outcomes : List (Option String)) (k : Int) (row : CSVFailedRow)
    (h : row ∈ failuresFrom k outcomes) : k ≤ row.Row ∧ row.Row < k + outcomes.length := by
  obtain ⟨j, hj, hrow⟩ := (mem_failuresFrom outcomes k row).mp h
  have hlt : j < outcomes.length := by
    rw [List.get?_eq_some] at hj
    exact hj.1
  omega

theorem failuresFrom_increasing (outcomes : List (Option String)) :
    ∀ k : Int, (failuresFrom k outcomes).Pairwise (fun a b => a.Row < b.Row) := by
  induction outcomes with
  | nil => intro k; simp [failuresFrom]
  | cons o os ih =>
    intro k
    cases o with
    | none => simpa [failuresFrom] using ih (k + 1)
    | some r =>
      simp only [failuresFrom, List.pairwise_cons]
      refine ⟨?_, ih (k + 1)⟩
      intro b hb
      have := (failuresFrom_bounds os (k + 1) b hb).1
      omega

/-- The report and state of the import once the reader has returned at least one
record: the loop runs over all data rows. -/
theorem ImportFromCSV_of_records {σ ε : Type} (svc : VoucherServiceImpl σ ε)
    (now : Nat → Time) (s : σ) (f : List Char) (header : List String)
    (rows : List (List String)) (hread : ReadAll f = some (.ok (header :: rows))) :
    ImportFromCSV svc now s (.ok f)
      = some (.ok (importRows svc now rows 0 0 s 0 0 []).1,
          (importRows svc now rows 0 0 s 0 0 []).2) := by
  simp [ImportFromCSV, hread, importRecords]

theorem ImportFromCSV_none_iff {σ ε : Type} (svc : VoucherServiceImpl σ ε)
    (now : Nat → Time) (s : σ) (f : List Char) (records : List (List String))
    (hread : ReadAll f = some (.ok records)) :
    ImportFromCSV svc now s (.ok f) = none ↔ records = [] := by
  cases records with
  | nil => simp [ImportFromCSV, hread, importRecords]
  | cons header rows => simp [ImportFromCSV_of_records svc now s f header rows hread]

/-- Where the claim of C11 holds: when the reader returns at least one record,
`ImportFromCSV` returns a report and no error, and when it returns the header
alone the report has `SuccessCount = 0`, `FailedCount = 0` and no failed row,
the store left as it was. -/
theorem ImportFromCSV_returns_of_header {σ ε : Type} (svc : VoucherServiceImpl σ ε)
    (now : Nat → Time) (s : σ) (f : List Char) (header : List String)
    (rows : List (List String)) (hread : ReadAll f = some (.ok (header :: rows))) :
    (∃ report s', ImportFromCSV svc now s (.ok f) = some (.ok report, s'))
      ∧ (rows = [] →
          ImportFromCSV svc now s (.ok f)
            = some (.ok { SuccessCount := 0, FailedCount := 0, FailedRows := [] }, s)) := by
  refine ⟨⟨_, _, ImportFromCSV_of_records svc now s f header rows hread⟩, ?_⟩
  intro hrows
  subst hrows
  rw [ImportFromCSV_of_records svc now s f header [] hread]
  rfl

/-- C11 (evaluation at the failing input): the reader parses the empty upload, and
an upload of blank lines, without error to zero records, and `ImportFromCSV`
then faults on `records[1:]` instead of returning a report; on an upload that
holds only the header row it returns the report with both counters `0` and no
failed row. -/
theorem ImportFromCSV_empty_upload_faults :
    ReadAll [] = some (.ok [])
      ∧ ImportFromCSV tableService sampleNow emptyDB (.ok []) = none
      ∧ ReadAll "\n\n".toList = some (.ok [])
      ∧ ImportFromCSV tableService sampleNow emptyDB (.ok "\n\n".toList) = none
      ∧ ImportFromCSV tableService sampleNow emptyDB
          (.ok "voucher_code,discount_percent,expiry_date\n".toList)
        = some (.ok { SuccessCount := 0, FailedCount := 0, FailedRows := [] }, emptyDB) := by
  refine ⟨?_, ?_, ?_, ?_, ?_⟩ <;> rfl

/-- C12: when the reader has parsed the upload to a header and data rows, then for
every repository behind the interface `ImportFromCSV` returns a report with
`SuccessCount + FailedCount` equal to the number of rows minus one,
`FailedCount` equal to the length of `FailedRows`, and the row numbers of
`FailedRows` strictly increasing and between 2 and the number of rows.  No row
stops the batch: every data row has an outcome (`specOutcomes` has one entry
per data row and `FailedRows` lists its failures), and a data row at index `j`
that fails one of the three checks is listed with row number `2 + j` whatever
happened to the rows before it. -/
theorem ImportFromCSV_report_invariants {σ ε : Type} (svc : VoucherServiceImpl σ ε)
    (now : Nat → Time) (s : σ) (f : List Char) (header : List String)
    (rows : List (List String)) (hread : ReadAll f = some (.ok (header :: rows))) :
    ∃ report s', ImportFromCSV svc now s (.ok f) = some (.ok report, s')
      ∧ report.SuccessCount + report.FailedCount = ((header :: rows).length : Int) - 1
      ∧ report.FailedCount = (report.FailedRows.length : Int)
      ∧ report.FailedRows.Pairwise (fun a b => a.Row < b.Row)
      ∧ (∀ row ∈ report.FailedRows, 2 ≤ row.Row ∧ row.Row ≤ ((header :: rows).length : Int))
      ∧ report.FailedRows = failuresFrom 2 (specOutcomes svc now s 0 rows)
      ∧ (specOutcomes svc now s 0 rows).length = rows.length
      ∧ (∀ (j : Nat) (record : List String) (reason : String), rows.get? j = some record →
          specRowCheck record = some reason →
          ({ Row := 2 + j, Reason := reason } : CSVFailedRow) ∈ report.FailedRows) := by
  have h := importRows_report svc now rows 0 0 s 0 0 []
  have hlen := specOutcomes_length svc now rows s 0
  have hcnt := count_none_add_failures (specOutcomes svc now s 0 rows)
  refine ⟨_, _, ImportFromCSV_of_records svc now s f header rows hread,
    ?_, ?_, ?_, ?_, ?_, hlen, ?_⟩
  · rw [h]
    simp only [zero_add, List.length_cons]
    rw [← hlen, ← hcnt]
    push_cast
    ring
  · rw [h]
    simp only [zero_add, List.nil_append, failuresFrom_length]
  · rw [h]
    simp only [zero_add, List.nil_append]
    exact failuresFrom_increasing _ 2
  · intro row hrow
    rw [h] at hrow
    simp only [zero_add, List.nil_append] at hrow
    have := failuresFrom_bounds _ 2 row hrow
    rw [hlen] at this
    simp only [List.length_cons]
    push_cast
    omega
  · rw [h]
    simp
  · intro j record reason hj hreason
    rw [h]
    simp only [zero_add, List.nil_append]
    rw [mem_failuresFrom]
    exact ⟨j, (specOutcomes_get? svc now rows s 0 j record hj).1 reason hreason, rfl⟩

theorem ImportFromCSV_report_invariants_witness :
    ReadAll "code,percent,expiry\nA,0,2030-01-01\nB,50,2030-01-01\nC,50,01/01/2030\n".toList
        = some (.ok [["code", "percent", "expiry"], ["A", "0", "2030-01-01"],
            ["B", "50", "2030-01-01"], ["C", "50", "01/01/2030"]])
      ∧ ∃ report s', ImportFromCSV tableService sampleNow emptyDB
            (.ok "code,percent,expiry\nA,0,2030-01-01\nB,50,2030-01-01\nC,50,01/01/2030\n".toList)
            = some (.ok report, s')
          ∧ report.SuccessCount + report.FailedCount = 3
          ∧ report.FailedCount = (report.FailedRows.length : Int)
          ∧ report.FailedRows.Pairwise (fun a b => a.Row < b.Row)
          ∧ (∀ row ∈ report.FailedRows, 2 ≤ row.Row ∧ row.Row ≤ 4)
          ∧ ({ Row := 4, Reason := "Invalid expiry date format" } : CSVFailedRow)
              ∈ report.FailedRows := by
  refine ⟨rfl, ?_⟩
  obtain ⟨report, s', h1, h2, h3, h4, h5, _, _, h8⟩ :=
    ImportFromCSV_report_invariants tableService sampleNow emptyDB
      "code,percent,expiry\nA,0,2030-01-01\nB,50,2030-01-01\nC,50,01/01/2030\n".toList
      ["code", "percent", "expiry"]
      [["A", "0", "2030-01-01"], ["B", "50", "2030-01-01"], ["C", "50", "01/01/2030"]] rfl
  refine ⟨report, s', h1, ?_, h3, h4, ?_, ?_⟩
  · simpa using h2
  · intro row hrow
    have := h5 row hrow
    simpa using this
  · exact h8 2 ["C", "50", "01/01/2030"] "Invalid expiry date format" rfl (by decide)

/-! ### The library models on sample inputs -/

theorem Atoi_samples :
    Atoi "42" = some 42 ∧ Atoi "+7" = some 7 ∧ Atoi "-7" = some (-7) ∧ Atoi "" = none
      ∧ Atoi "4 2" = none ∧ Atoi "1.5" = none ∧ Atoi "99999999999999999999" = none
      ∧ Itoa 100 = "100" ∧ Itoa (-5) = "-5" := by
  decide

theorem Parse_samples :
    Parse "2025-12-31" = some (Time.date 2025 12 31) ∧ Parse "2025-02-29" = none
      ∧ Parse "2024-02-29" = some (Time.date 2024 2 29) ∧ Parse "2025-1-01" = none
      ∧ Parse "2025-13-01" = none ∧ Parse "not-a-date" = none ∧ Parse "2025-12-31 " = none
      ∧ (Time.date 2025 1 9).Format = "2025-01-09"
      ∧ (Time.date 12345 1 9).Format = "12345-01-09" := by
  decide

theorem Write_samples :
    String.mk (Writer.Write [] ["a b", " x", "q\"r", "l\nm", ""])
      = "a b,\" x\",\"q\"\"r\",\"l\nm\",\n" := by
  decide

theorem ReadAll_samples :
    ReadAll "a,b,c\n1,2,3\n".toList = some (.ok [["a", "b", "c"], ["1", "2", "3"]])
      ∧ ReadAll "a,b,c\r\n\n\n1, 2,\"3\"".toList = some (.ok [["a", "b", "c"], ["1", "2", "3"]])
      ∧ ReadAll "a,b,c\n1,2\n".toList = some (.error .ErrFieldCount)
      ∧ ReadAll "a,\"x\r\ny\"\"z\"\n".toList = some (.ok [["a", "x\ny\"z"]])
      ∧ ReadAll "a,\"x\n".toList = some (.error .ErrQuote)
      ∧ ReadAll "a,x\"y\n".toList = some (.error .ErrBareQuote)
      ∧ ReadAll "a,\"x\"y\n".toList = some (.error .ErrQuote)
      ∧ ReadAll "".toList = some (.ok [])
      ∧ ReadAll "\n\n\n".toList = some (.ok [])
      ∧ ReadAll "a, \n".toList = some (.ok [["a", ""]]) := by
  refine ⟨?_, ?_, ?_, ?_, ?_, ?_, ?_, ?_, ?_, ?_⟩ <;> rfl

end VoucherAPI
